import Mathlib

/-!
# BiasClear — verification of the core against its specification

Shallow embedding of the BiasClear core (truth scorer, corrector gate,
learning ring, audit chain, detector orchestrator, frozen-core evaluator)
translated from the Python sources under `src/`, together with theorems
settling the frozen claims about the specification.

Python strings are modelled as Lean `String`/`List Char`, machine integers
as `Nat`/`Int`, SQLite tables as association lists, and fallible paths as
`Option`/`Except`.  LLM responses, being external inputs, appear as explicit
parameters of the functions that consume them.
-/

namespace BiasClear

/-! ## Scorer (`src/app/scorer.py`, `src/biasclear/scorer.py`)

`calculate_truth_score` consumes a `CoreEvaluation` (flags plus the dominant
tier label), an optional deep-analysis result and an optional list of AI
flags.  Flags carry `category`, `pattern_id`, `severity` and `pit_tier`.
-/

/-- One detection flag as consumed by the scorer
(`Flag` in `frozen_core.py`, dict-shaped for AI flags). -/
structure ScFlag where
  category : String
  pattern_id : String
  severity : String
  pit_tier : Int
  deriving Repr, DecidableEq

/-- The slice of `CoreEvaluation` that `calculate_truth_score` reads:
its flag list and the `pit_tier_active` label (`None` or `"tier_{n}_{name}"`). -/
structure ScEval where
  flags : List ScFlag
  pit_tier_active : Option String
  deriving Repr, DecidableEq

/-- The slice of the deep-analysis dict that the scorer reads:
`severity` (absent key yields `"none"` via `.get`) and `bias_types`. -/
structure DeepResult where
  severity : String
  bias_types : List String
  deriving Repr, DecidableEq

/-- `structural_penalty.get(flag.severity, 8)` from `scorer.py`. -/
def structuralPenalty (sev : String) : Int :=
  if sev = "critical" then 25
  else if sev = "high" then 20
  else if sev = "moderate" then 14
  else if sev = "low" then 8
  else 8

/-- `ai_penalty_map.get(sev, 6)` from `scorer.py`. -/
def aiPenalty (sev : String) : Int :=
  if sev = "critical" then 14
  else if sev = "high" then 10
  else if sev = "moderate" then 6
  else if sev = "low" then 3
  else 6

/-- `deep_sev_penalty.get(severity, 0)` from `scorer.py`. -/
def deepSevPenalty (sev : String) : Int :=
  if sev = "critical" then 20
  else if sev = "high" then 15
  else if sev = "moderate" then 8
  else if sev = "low" then 4
  else 0

/-- `tier_penalty.get(tier_num, 0)` from `scorer.py`. -/
def tierPenalty (n : Int) : Int :=
  if n = 1 then 10 else if n = 2 then 7 else if n = 3 then 4 else 0

/-- Python `str.split(sep)` for a one-character separator, on char lists:
splits at every occurrence, keeping empty pieces. -/
def splitOnChar (c : Char) : List Char → List (List Char)
  | [] => [[]]
  | x :: xs =>
    match splitOnChar c xs with
    | [] => if x = c then [[], []] else [[x]]
    | y :: ys => if x = c then [] :: y :: ys else (x :: y) :: ys

/-- Decimal digit run parser (`none` unless the input is one or more
ASCII digits). -/
def parseNatDigits : List Char → Option Nat
  | [] => none
  | cs =>
    let rec go : List Char → Nat → Option Nat
      | [], acc => some acc
      | c :: rest, acc =>
        if c.isDigit then go rest (acc * 10 + (c.toNat - 48)) else none
    go cs 0

/-- Python `int(s)` restricted to an optional sign followed by digits
(the tier labels fed to it are `tier_{n}_{name}`, so the second `_`-piece
is a bare digit run; exotic `int` inputs such as embedded underscores or
surrounding whitespace are not modelled). -/
def parseIntLit (cs : List Char) : Option Int :=
  match cs with
  | '+' :: rest => (parseNatDigits rest).map (fun n => (n : Int))
  | '-' :: rest => (parseNatDigits rest).map (fun n => -(n : Int))
  | _ => (parseNatDigits cs).map (fun n => (n : Int))

/-- `int(core_eval.pit_tier_active.split("_")[1])` guarded by
`try/except (IndexError, ValueError)`: the label is split on `_`, the
second piece parsed as an integer; any failure means no tier penalty. -/
def parseTierLabel (label : String) : Option Int :=
  match (splitOnChar '_' label.toList).get? 1 with
  | none => none
  | some s => parseIntLit s

/-- The per-flag loop of `calculate_truth_score`: accumulates the score
delta, the set of structural tiers seen (`tier_set`) and the marker count. -/
def scoreFlagStep (acc : Int × List Int × Nat) (f : ScFlag) :
    Int × List Int × Nat :=
  let (score, tiers, markers) := acc
  if f.category = "structural" then
    (score - structuralPenalty f.severity,
     if f.pit_tier ∈ tiers then tiers else f.pit_tier :: tiers,
     markers)
  else if f.category = "marker" then
    (score - 4, tiers, markers + 1)
  else
    (score, tiers, markers)

/-- `calculate_truth_score(core_eval, deep_result, ai_flags)` from
`src/app/scorer.py` / `src/biasclear/scorer.py`, returning the final
clamped score (the breakdown dict is bookkeeping-only and not modelled). -/
def calculate_truth_score (core_eval : ScEval) (deep_result : Option DeepResult)
    (ai_flags : List ScFlag) : Int :=
  let (s₁, tier_set, _) := core_eval.flags.foldl scoreFlagStep (100, [], 0)
  let s₂ :=
    match core_eval.pit_tier_active with
    | none => s₁
    | some label =>
      match parseTierLabel label with
      | none => s₁
      | some n => s₁ - tierPenalty n
  let s₃ :=
    if 1 < tier_set.length then s₂ - ((tier_set.length : Int) - 1) * 5 else s₂
  let s₄ := ai_flags.foldl (fun s f => s - aiPenalty f.severity) s₃
  let s₅ :=
    match deep_result with
    | none => s₄
    | some d =>
      let uniqueTypes := (d.bias_types.filter (· ≠ "none")).dedup
      s₄ - deepSevPenalty d.severity - (uniqueTypes.length : Int) * 4
  max 0 (min 100 s₅)

/-! ### Claim-side scoring formula (C7)

The claim enumerates the penalty tables explicitly; outside the enumerated
severities the claim assigns nothing, so the spec-side tables return 0 there
and the theorem carries the corresponding well-formedness hypotheses. -/

/-- The canonical severities. -/
def canonicalSeverities : List String := ["low", "moderate", "high", "critical"]

/-- Structural-flag penalty exactly as enumerated by the claim. -/
def specStructuralPenalty (sev : String) : Int :=
  if sev = "critical" then 25
  else if sev = "high" then 20
  else if sev = "moderate" then 14
  else if sev = "low" then 8
  else 0

/-- AI-flag penalty exactly as enumerated by the claim. -/
def specAiPenalty (sev : String) : Int :=
  if sev = "critical" then 14
  else if sev = "high" then 10
  else if sev = "moderate" then 6
  else if sev = "low" then 3
  else 0

/-- Deep-severity penalty exactly as enumerated by the claim. -/
def specDeepPenalty (sev : String) : Int :=
  if sev = "critical" then 20
  else if sev = "high" then 15
  else if sev = "moderate" then 8
  else if sev = "low" then 4
  else 0

/-- The structural flags of an evaluation. -/
def structuralFlags (fs : List ScFlag) : List ScFlag :=
  fs.filter (fun f => f.category = "structural")

/-- Number of keyword-marker flags. -/
def markerCount (fs : List ScFlag) : Nat :=
  (fs.filter (fun f => f.category = "marker")).length

/-- The distinct PIT tiers spanned by the structural flags. -/
def distinctStructuralTiers (fs : List ScFlag) : Nat :=
  ((structuralFlags fs).map (·.pit_tier)).dedup.length

/-- Sum of the claim's per-penalty terms: structural flags, markers,
dominant tier, multi-tier span, AI flags, deep severity, deep bias types. -/
def specTotalPenalty (core_eval : ScEval) (deep_result : Option DeepResult)
    (ai_flags : List ScFlag) : Int :=
  ((structuralFlags core_eval.flags).map
      (fun f => specStructuralPenalty f.severity)).sum
  + 4 * (markerCount core_eval.flags : Int)
  + (match core_eval.pit_tier_active with
     | none => 0
     | some label =>
       match parseTierLabel label with
       | none => 0
       | some n => tierPenalty n)
  + (if distinctStructuralTiers core_eval.flags ≤ 1 then 0
     else 5 * ((distinctStructuralTiers core_eval.flags : Int) - 1))
  + (ai_flags.map (fun f => specAiPenalty f.severity)).sum
  + (match deep_result with
     | none => 0
     | some d =>
       specDeepPenalty d.severity
       + 4 * (((d.bias_types.filter (· ≠ "none")).dedup.length : Int)))

/-- `tier_set.add` on the list model: prepend if not already present. -/
def insertNew (ts : List Int) (x : Int) : List Int :=
  if x ∈ ts then ts else x :: ts

/-- The PIT tiers of the structural flags, in flag order. -/
def structuralTiers (fs : List ScFlag) : List Int :=
  (structuralFlags fs).map (·.pit_tier)

lemma mem_foldl_insertNew (xs : List Int) (ts : List Int) (a : Int) :
    a ∈ xs.foldl insertNew ts ↔ a ∈ ts ∨ a ∈ xs := by
  induction xs generalizing ts with
  | nil => simp
  | cons x xs ih =>
    simp only [List.foldl_cons, insertNew]
    by_cases hx : x ∈ ts
    · rw [if_pos hx, ih]
      simp only [List.mem_cons]
      constructor
      · rintro (h | h)
        · exact Or.inl h
        · exact Or.inr (Or.inr h)
      · rintro (h | rfl | h)
        · exact Or.inl h
        · exact Or.inl hx
        · exact Or.inr h
    · rw [if_neg hx, ih]
      simp only [List.mem_cons]
      tauto

lemma foldl_insertNew_nodup (xs : List Int) (ts : List Int) (h : ts.Nodup) :
    (xs.foldl insertNew ts).Nodup := by
  induction xs generalizing ts with
  | nil => exact h
  | cons x xs ih =>
    simp only [List.foldl_cons]
    apply ih
    unfold insertNew
    by_cases hx : x ∈ ts
    · rwa [if_pos hx]
    · rw [if_neg hx]
      exact List.nodup_cons.mpr ⟨hx, h⟩

lemma foldl_insertNew_length (xs : List Int) :
    (xs.foldl insertNew []).length = xs.dedup.length := by
  have hnd : (xs.foldl insertNew []).Nodup :=
    foldl_insertNew_nodup xs [] List.nodup_nil
  have hfs : (xs.foldl insertNew []).toFinset = xs.toFinset := by
    ext a
    simp [List.mem_toFinset, mem_foldl_insertNew]
  have hds : xs.dedup.toFinset = xs.toFinset := by
    ext a
    simp [List.mem_toFinset, List.mem_dedup]
  calc (xs.foldl insertNew []).length
      = (xs.foldl insertNew []).toFinset.card :=
        (List.toFinset_card_of_nodup hnd).symm
    _ = xs.toFinset.card := by rw [hfs]
    _ = xs.dedup.toFinset.card := by rw [hds]
    _ = xs.dedup.length := List.toFinset_card_of_nodup (List.nodup_dedup xs)

lemma scoreFold_eq (fs : List ScFlag) (s : Int) (ts : List Int) (m : Nat) :
    fs.foldl scoreFlagStep (s, ts, m) =
      (s - ((structuralFlags fs).map (fun f => structuralPenalty f.severity)).sum
         - 4 * (markerCount fs : Int),
       (structuralTiers fs).foldl insertNew ts,
       m + markerCount fs) := by
  induction fs generalizing s ts m with
  | nil => simp [structuralFlags, markerCount, structuralTiers]
  | cons f fs ih =>
    simp only [List.foldl_cons]
    by_cases hstruct : f.category = "structural"
    · rw [show scoreFlagStep (s, ts, m) f =
          (s - structuralPenalty f.severity, insertNew ts f.pit_tier, m) by
        simp [scoreFlagStep, insertNew, hstruct]]
      rw [ih]
      have h₁ : structuralFlags (f :: fs) = f :: structuralFlags fs := by
        simp [structuralFlags, hstruct]
      have h₂ : markerCount (f :: fs) = markerCount fs := by
        simp [markerCount, List.filter_cons, hstruct]
      have h₃ : structuralTiers (f :: fs) = f.pit_tier :: structuralTiers fs := by
        simp [structuralTiers, h₁]
      rw [h₁, h₂, h₃]
      simp only [List.map_cons, List.sum_cons, List.foldl_cons, Prod.mk.injEq,
        and_true, true_and]
      ring
    · by_cases hmark : f.category = "marker"
      · rw [show scoreFlagStep (s, ts, m) f = (s - 4, ts, m + 1) by
          simp [scoreFlagStep, hstruct, hmark]]
        rw [ih]
        have h₁ : structuralFlags (f :: fs) = structuralFlags fs := by
          simp [structuralFlags, List.filter_cons, hstruct]
        have h₂ : markerCount (f :: fs) = markerCount fs + 1 := by
          simp [markerCount, List.filter_cons, hmark]
        have h₃ : structuralTiers (f :: fs) = structuralTiers fs := by
          simp [structuralTiers, h₁]
        rw [h₁, h₂, h₃]
        simp only [Prod.mk.injEq, and_true, true_and]
        exact ⟨by push_cast; ring, by omega⟩
      · rw [show scoreFlagStep (s, ts, m) f = (s, ts, m) by
          simp [scoreFlagStep, hstruct, hmark]]
        rw [ih]
        have h₁ : structuralFlags (f :: fs) = structuralFlags fs := by
          simp [structuralFlags, List.filter_cons, hstruct]
        have h₂ : markerCount (f :: fs) = markerCount fs := by
          simp [markerCount, List.filter_cons, hmark]
        have h₃ : structuralTiers (f :: fs) = structuralTiers fs := by
          simp [structuralTiers, h₁]
        rw [h₁, h₂, h₃]

lemma map_sum_congr {α : Type} (l : List α) (f g : α → Int)
    (h : ∀ a ∈ l, f a = g a) : (l.map f).sum = (l.map g).sum := by
  induction l with
  | nil => rfl
  | cons x xs ih =>
    simp only [List.map_cons, List.sum_cons]
    rw [h x (List.mem_cons_self x xs), ih (fun a ha => h a (List.mem_cons_of_mem x ha))]

lemma foldl_sub_sum (l : List ScFlag) (p : String → Int) (s : Int) :
    l.foldl (fun s f => s - p f.severity) s = s - (l.map (fun f => p f.severity)).sum := by
  induction l generalizing s with
  | nil => simp
  | cons x xs ih =>
    simp only [List.foldl_cons, List.map_cons, List.sum_cons, ih]
    ring

lemma structuralPenalty_eq_spec (sev : String) (h : sev ∈ canonicalSeverities) :
    structuralPenalty sev = specStructuralPenalty sev := by
  simp only [canonicalSeverities, List.mem_cons, List.mem_singleton] at h
  rcases h with rfl | rfl | rfl | rfl | h
  · rfl
  · rfl
  · rfl
  · rfl
  · cases h

lemma aiPenalty_eq_spec (sev : String) (h : sev ∈ canonicalSeverities) :
    aiPenalty sev = specAiPenalty sev := by
  simp only [canonicalSeverities, List.mem_cons, List.mem_singleton] at h
  rcases h with rfl | rfl | rfl | rfl | h
  · rfl
  · rfl
  · rfl
  · rfl
  · cases h

lemma deepSevPenalty_eq_spec (sev : String)
    (h : sev = "none" ∨ sev ∈ canonicalSeverities) :
    deepSevPenalty sev = specDeepPenalty sev := by
  rcases h with rfl | h
  · rfl
  · simp only [canonicalSeverities, List.mem_cons, List.mem_singleton] at h
    rcases h with rfl | rfl | rfl | rfl | h
    · rfl
    · rfl
    · rfl
    · rfl
    · cases h

/-- Total penalty with the code's own tables (identical to
`specTotalPenalty` on canonical severities). -/
def codeTotalPenalty (core_eval : ScEval) (deep_result : Option DeepResult)
    (ai_flags : List ScFlag) : Int :=
  ((structuralFlags core_eval.flags).map
      (fun f => structuralPenalty f.severity)).sum
  + 4 * (markerCount core_eval.flags : Int)
  + (match core_eval.pit_tier_active with
     | none => 0
     | some label =>
       match parseTierLabel label with
       | none => 0
       | some n => tierPenalty n)
  + (if distinctStructuralTiers core_eval.flags ≤ 1 then 0
     else 5 * ((distinctStructuralTiers core_eval.flags : Int) - 1))
  + (ai_flags.map (fun f => aiPenalty f.severity)).sum
  + (match deep_result with
     | none => 0
     | some d =>
       deepSevPenalty d.severity
       + 4 * (((d.bias_types.filter (· ≠ "none")).dedup.length : Int)))

lemma calculate_truth_score_eq (ev : ScEval) (deep : Option DeepResult)
    (ai : List ScFlag) :
    calculate_truth_score ev deep ai
      = max 0 (min 100 (100 - codeTotalPenalty ev deep ai)) := by
  unfold calculate_truth_score codeTotalPenalty
  rw [scoreFold_eq]
  dsimp only
  rw [foldl_sub_sum]
  have hlen : ((structuralTiers ev.flags).foldl insertNew []).length
      = distinctStructuralTiers ev.flags := foldl_insertNew_length _
  rw [hlen]
  cases hp : ev.pit_tier_active with
  | none =>
    cases deep with
    | none =>
      by_cases hD : distinctStructuralTiers ev.flags ≤ 1
      · rw [if_neg (by omega : ¬ 1 < distinctStructuralTiers ev.flags), if_pos hD]
        ring_nf
      · rw [if_pos (by omega : 1 < distinctStructuralTiers ev.flags), if_neg hD]
        ring_nf
    | some d =>
      by_cases hD : distinctStructuralTiers ev.flags ≤ 1
      · rw [if_neg (by omega : ¬ 1 < distinctStructuralTiers ev.flags), if_pos hD]
        ring_nf
      · rw [if_pos (by omega : 1 < distinctStructuralTiers ev.flags), if_neg hD]
        ring_nf
  | some label =>
    cases hq : parseTierLabel label with
    | none =>
      simp only [hq]
      cases deep with
      | none =>
        by_cases hD : distinctStructuralTiers ev.flags ≤ 1
        · rw [if_neg (by omega : ¬ 1 < distinctStructuralTiers ev.flags), if_pos hD]
          ring_nf
        · rw [if_pos (by omega : 1 < distinctStructuralTiers ev.flags), if_neg hD]
          ring_nf
      | some d =>
        by_cases hD : distinctStructuralTiers ev.flags ≤ 1
        · rw [if_neg (by omega : ¬ 1 < distinctStructuralTiers ev.flags), if_pos hD]
          ring_nf
        · rw [if_pos (by omega : 1 < distinctStructuralTiers ev.flags), if_neg hD]
          ring_nf
    | some n =>
      simp only [hq]
      cases deep with
      | none =>
        by_cases hD : distinctStructuralTiers ev.flags ≤ 1
        · rw [if_neg (by omega : ¬ 1 < distinctStructuralTiers ev.flags), if_pos hD]
          ring_nf
        · rw [if_pos (by omega : 1 < distinctStructuralTiers ev.flags), if_neg hD]
          ring_nf
      | some d =>
        by_cases hD : distinctStructuralTiers ev.flags ≤ 1
        · rw [if_neg (by omega : ¬ 1 < distinctStructuralTiers ev.flags), if_pos hD]
          ring_nf
        · rw [if_pos (by omega : 1 < distinctStructuralTiers ev.flags), if_neg hD]
          ring_nf

lemma codeTotal_eq_specTotal (ev : ScEval) (deep : Option DeepResult)
    (ai : List ScFlag)
    (hs : ∀ f ∈ ev.flags, f.category = "structural" →
      f.severity ∈ canonicalSeverities)
    (ha : ∀ f ∈ ai, f.severity ∈ canonicalSeverities)
    (hd : ∀ d, deep = some d →
      d.severity = "none" ∨ d.severity ∈ canonicalSeverities) :
    codeTotalPenalty ev deep ai = specTotalPenalty ev deep ai := by
  unfold codeTotalPenalty specTotalPenalty
  have hstructsum :
      ((structuralFlags ev.flags).map (fun f => structuralPenalty f.severity)).sum
        = ((structuralFlags ev.flags).map
            (fun f => specStructuralPenalty f.severity)).sum := by
    apply map_sum_congr
    intro f hf
    have hmem := List.mem_filter.mp hf
    exact structuralPenalty_eq_spec _ (hs f hmem.1 (by simpa using hmem.2))
  have haisum : (ai.map (fun f => aiPenalty f.severity)).sum
      = (ai.map (fun f => specAiPenalty f.severity)).sum :=
    map_sum_congr _ _ _ (fun f hf => aiPenalty_eq_spec _ (ha f hf))
  rw [hstructsum, haisum]
  cases hdv : deep with
  | none => rfl
  | some d =>
    dsimp only
    rw [deepSevPenalty_eq_spec _ (hd d hdv)]

/-- **C7.** For every CoreEvaluation (structural-flag severities canonical),
optional deep-analysis result (severity `none` or canonical) and optional
AI-flag list (severities canonical), `calculate_truth_score` returns 100
minus the sum of the claim's penalties — structural 25/20/14/8, markers 4,
dominant tier 10/7/4, multi-tier span 5·(distinct structural tiers − 1),
AI flags 14/10/6/3, deep severity 20/15/8/4, 4 per distinct non-`"none"`
deep bias type — clamped to [0,100]; penalties above 100 yield exactly 0
and the result is never negative. -/
theorem truth_score_matches_penalty_table (ev : ScEval)
    (deep : Option DeepResult) (ai : List ScFlag)
    (hs : ∀ f ∈ ev.flags, f.category = "structural" →
      f.severity ∈ canonicalSeverities)
    (ha : ∀ f ∈ ai, f.severity ∈ canonicalSeverities)
    (hd : ∀ d, deep = some d →
      d.severity = "none" ∨ d.severity ∈ canonicalSeverities) :
    calculate_truth_score ev deep ai
        = max 0 (min 100 (100 - specTotalPenalty ev deep ai))
      ∧ (100 < specTotalPenalty ev deep ai → calculate_truth_score ev deep ai = 0)
      ∧ 0 ≤ calculate_truth_score ev deep ai
      ∧ calculate_truth_score ev deep ai ≤ 100 := by
  have key := calculate_truth_score_eq ev deep ai
  rw [codeTotal_eq_specTotal ev deep ai hs ha hd] at key
  refine ⟨key, ?_, ?_, ?_⟩ <;> rw [key] <;> omega

/-- Witness for C7: a concrete evaluation (one critical structural flag on
tier 1, one marker, dominant tier label `tier_1_ideological`, deep severity
`high` with two distinct bias types, one low AI flag) scores
100 − (25+4+10+3+15+8) = 35. -/
theorem truth_score_matches_penalty_table_witness :
    calculate_truth_score
        ⟨[⟨"structural", "CONSENSUS_AS_EVIDENCE", "critical", 1⟩,
          ⟨"marker", "SK_STUDIES_SHOW", "low", 1⟩],
         some "tier_1_ideological"⟩
        (some ⟨"high", ["authority_bias", "none", "authority_bias", "framing_bias"]⟩)
        [⟨"structural", "moral_framing", "low", 2⟩] = 35 := by
  have h := (truth_score_matches_penalty_table
    ⟨[⟨"structural", "CONSENSUS_AS_EVIDENCE", "critical", 1⟩,
      ⟨"marker", "SK_STUDIES_SHOW", "low", 1⟩],
     some "tier_1_ideological"⟩
    (some ⟨"high", ["authority_bias", "none", "authority_bias", "framing_bias"]⟩)
    [⟨"structural", "moral_framing", "low", 2⟩]
    (by decide) (by decide)
    (by intro d hdq; injection hdq with hdq; subst hdq; decide)).1
  rw [h]
  decide

/-! ## Corrector (`src/biasclear/corrector.py`)

`_should_correct` gates the whole correction pipeline; below the gate,
`correct_bias` returns the identity record without calling the LLM.  The
LLM-driven loop outcome is an external input, modelled as an `Except`
value (the `except Exception` branch of `correct_bias`). -/

/-- The flag fields `_should_correct` reads (`flag.get("category")`,
`flag.get("severity", "low")`). -/
structure CorrFlag where
  category : String
  severity : String
  deriving Repr, DecidableEq

/-- The scan-result fields the corrector gate reads
(`scan_result.get("truth_score", 100)`, `scan_result.get("flags", [])`). -/
structure ScanResultC where
  truth_score : Int
  flags : List CorrFlag
  deriving Repr, DecidableEq

/-- `_SEVERITY_RANK.get(severity, 0)` from `corrector.py`. -/
def severityRank (sev : String) : Nat :=
  if sev = "critical" then 4
  else if sev = "high" then 3
  else if sev = "moderate" then 2
  else if sev = "low" then 1
  else 0

/-- `_should_correct(scan_result)` from `corrector.py`: truth score ≤ 80,
or some structural flag ranks at least `moderate`. -/
def should_correct (sr : ScanResultC) : Bool :=
  if sr.truth_score ≤ 80 then true
  else sr.flags.any (fun f =>
    f.category = "structural" && severityRank "moderate" ≤ severityRank f.severity)

/-- Successful outcome of `_correction_loop` (fields of the last LLM
response that `correct_bias` copies out). -/
structure LoopOut where
  corrected : String
  changes_made : List String
  bias_removed : List String
  confidence : ℚ
  deriving Repr, DecidableEq

/-- The corrector's result record (the fields every branch of
`correct_bias` populates). -/
structure CorrectionResult where
  original : String
  corrected : String
  changes_made : List String
  bias_removed : List String
  confidence : ℚ
  correction_triggered : Bool
  deriving Repr, DecidableEq

/-- `correct_bias(text, scan_result, llm, domain)` from `corrector.py`
with the LLM-driven loop abstracted as its outcome: below the gate the
identity record is returned; above it, either the loop's result or the
`except`-branch fallback, both with `correction_triggered = True`. -/
def correct_bias (text : String) (sr : ScanResultC)
    (loop : Except String LoopOut) : CorrectionResult :=
  if ¬ should_correct sr then
    { original := text, corrected := text, changes_made := [],
      bias_removed := [], confidence := 1, correction_triggered := false }
  else
    match loop with
    | .ok l =>
      { original := text, corrected := l.corrected,
        changes_made := l.changes_made, bias_removed := l.bias_removed,
        confidence := l.confidence, correction_triggered := true }
    | .error _ =>
      { original := text, corrected := text, changes_made := [],
        bias_removed := [], confidence := 0, correction_triggered := true }

/-- **C8.** Correction runs iff `truth_score ≤ 80` or some structural flag
has severity at least moderate; keyword-marker flags alone (with score
above 80) never trigger it; and below the threshold the corrector returns
the identity: `corrected = original`, `changes_made = []`,
`correction_triggered = false`. -/
theorem corrector_threshold_gate (text : String) (sr : ScanResultC)
    (loop : Except String LoopOut) :
    ((correct_bias text sr loop).correction_triggered = true
       ↔ (sr.truth_score ≤ 80 ∨ ∃ f ∈ sr.flags, f.category = "structural" ∧
            f.severity ∈ ["moderate", "high", "critical"]))
    ∧ ((∀ f ∈ sr.flags, f.category = "marker") → 80 < sr.truth_score →
        (correct_bias text sr loop).correction_triggered = false)
    ∧ (¬ (sr.truth_score ≤ 80 ∨ ∃ f ∈ sr.flags, f.category = "structural" ∧
            f.severity ∈ ["moderate", "high", "critical"]) →
        correct_bias text sr loop
          = { original := text, corrected := text, changes_made := [],
              bias_removed := [], confidence := 1,
              correction_triggered := false }) := by
  have hgate : should_correct sr = true
      ↔ (sr.truth_score ≤ 80 ∨ ∃ f ∈ sr.flags, f.category = "structural" ∧
          f.severity ∈ ["moderate", "high", "critical"]) := by
    unfold should_correct
    by_cases hts : sr.truth_score ≤ 80
    · simp [hts]
    · simp only [if_neg hts, List.any_eq_true, Bool.and_eq_true, decide_eq_true_eq]
      constructor
      · rintro ⟨f, hf, hcat, hrank⟩
        refine Or.inr ⟨f, hf, hcat, ?_⟩
        unfold severityRank at hrank
        by_cases h1 : f.severity = "critical"
        · simp [h1]
        · by_cases h2 : f.severity = "high"
          · simp [h2]
          · by_cases h3 : f.severity = "moderate"
            · simp [h3]
            · by_cases h4 : f.severity = "low" <;>
                simp [h1, h2, h3, h4] at hrank
      · rintro (h | ⟨f, hf, hcat, hsev⟩)
        · exact absurd h hts
        · refine ⟨f, hf, hcat, ?_⟩
          simp only [List.mem_cons, List.mem_singleton] at hsev
          rcases hsev with h | h | h | hsev
          · simp [severityRank, h]
          · simp [severityRank, h]
          · simp [severityRank, h]
          · simp at hsev
  refine ⟨?_, ?_, ?_⟩
  · unfold correct_bias
    by_cases hg : should_correct sr = true
    · rw [if_neg (by simp [hg])]
      cases loop with
      | ok l => simpa using hgate.mp hg
      | error e => simpa using hgate.mp hg
    · rw [if_pos (by simpa using hg)]
      simp only [show (false : Bool) = true ↔ False by simp, false_iff]
      intro hcon
      exact hg (hgate.mpr hcon)
  · intro hmark hts
    have hg : ¬ should_correct sr = true := by
      intro hg
      rcases hgate.mp hg with h | ⟨f, hf, hcat, _⟩
      · omega
      · have := hmark f hf
        rw [this] at hcat
        exact absurd hcat (by decide)
    unfold correct_bias
    rw [if_pos (by simpa using hg)]
  · intro hcon
    have hg : ¬ should_correct sr = true := fun hg => hcon (hgate.mp hg)
    unfold correct_bias
    rw [if_pos (by simpa using hg)]

/-- Witness for C8: a clean scan (score 100, one low marker flag) leaves
the text untouched and does not trigger correction. -/
theorem corrector_threshold_gate_witness :
    ((∀ f ∈ (⟨100, [⟨"marker", "low"⟩]⟩ : ScanResultC).flags,
        f.category = "marker") ∧ (80 : Int) < 100)
    ∧ correct_bias "The meeting is at 3pm." ⟨100, [⟨"marker", "low"⟩]⟩
        (.error "llm unavailable")
      = { original := "The meeting is at 3pm.",
          corrected := "The meeting is at 3pm.", changes_made := [],
          bias_removed := [], confidence := 1,
          correction_triggered := false } := by
  refine ⟨⟨by decide, by norm_num⟩, ?_⟩
  exact (corrector_threshold_gate "The meeting is at 3pm."
    ⟨100, [⟨"marker", "low"⟩]⟩ (.error "llm unavailable")).2.2 (by decide)

/-! ## Learning Ring (`src/app/patterns/learned.py`)

The `learned_patterns` SQLite table is modelled as an association list
keyed by `pattern_id`; the operations `propose`, `report_false_positive`
and `record_evaluation` are state-passing translations of the Python
methods.  Timestamps (`datetime.now`) are explicit `now` arguments.
`PIT_TIERS` (from `frozen_core.py`) has exactly the keys 1, 2, 3. -/

/-- A row of `learned_patterns` (governance fields). -/
structure LearnedRec where
  name : String
  description : String
  pit_tier : Int
  severity : String
  principle : String
  regex : String
  status : String
  confirmations : Nat
  false_positives : Nat
  total_evaluations : Nat
  proposed_at : String
  activated_at : Option String
  deactivated_at : Option String
  source_scan_hash : String
  deriving Repr, DecidableEq

/-- The learned-pattern store: rows keyed by `pattern_id`. -/
def RingState : Type := List (String × LearnedRec)

instance : DecidableEq RingState := by
  unfold RingState
  infer_instance

/-- SQL `SELECT ... WHERE pattern_id = ?`. -/
def ringLookup (st : RingState) (pid : String) : Option LearnedRec :=
  match st.find? (fun kv => kv.1 = pid) with
  | some kv => some kv.2
  | none => none

/-- SQL `UPDATE learned_patterns SET ... WHERE pattern_id = ?`. -/
def ringUpdate (st : RingState) (pid : String) (f : LearnedRec → LearnedRec) :
    RingState :=
  st.map (fun kv => if kv.1 = pid then (kv.1, f kv.2) else kv)

/-- Learning-ring configuration (`activation_threshold` default 5,
`fp_limit` default 0.15); runtime-immutable. -/
structure RingConfig where
  activation_threshold : Nat
  fp_limit : ℚ
  deriving Repr, DecidableEq

/-- The value keys of the `PIT_TIERS` dict. -/
def pitTierKeys : List Int := [1, 2, 3]

/-- Outcome dict of `LearningRing.propose`. -/
inductive ProposeResult where
  | rejectedTier
  | rejectedSeverity
  | confirmedR (confirmations : Nat)
  | activatedR
  | proposedR
  deriving Repr, DecidableEq

/-- The `accepted` field of the returned dict. -/
def ProposeResult.accepted : ProposeResult → Bool
  | .rejectedTier => false
  | .rejectedSeverity => false
  | _ => true

/-- `LearningRing.propose` from `learned.py`: guard the PIT tier and the
severity, then either increment confirmations of an existing row (and
auto-activate a staging row that reaches the threshold) or insert a fresh
staging row with `confirmations = 1`. -/
def ringPropose (cfg : RingConfig) (st : RingState)
    (pattern_id name description : String) (pit_tier : Int)
    (severity principle regex source_scan_hash now : String) :
    ProposeResult × RingState :=
  if pit_tier ∉ pitTierKeys then (.rejectedTier, st)
  else if severity ∉ canonicalSeverities then (.rejectedSeverity, st)
  else
    match ringLookup st pattern_id with
    | some rec =>
      let newConf := rec.confirmations + 1
      let st₁ := ringUpdate st pattern_id
        (fun r => { r with confirmations := newConf })
      if rec.status = "staging" ∧ cfg.activation_threshold ≤ newConf then
        (.activatedR,
         ringUpdate st₁ pattern_id
           (fun r => { r with status := "active", activated_at := some now }))
      else (.confirmedR newConf, st₁)
    | none =>
      (.proposedR,
       (pattern_id,
        { name := name, description := description, pit_tier := pit_tier,
          severity := severity, principle := principle, regex := regex,
          status := "staging", confirmations := 1, false_positives := 0,
          total_evaluations := 0, proposed_at := now, activated_at := none,
          deactivated_at := none,
          source_scan_hash := source_scan_hash }) :: st)

/-- Outcome dict of `LearningRing.report_false_positive`. -/
inductive FPResult where
  | notFound
  | deactivatedR
  | recordedR (false_positives : Nat)
  deriving Repr, DecidableEq

/-- `LearningRing.report_false_positive` from `learned.py`: unknown ids
produce an error without touching the store; otherwise the FP count is
incremented, and an *active* row whose FP rate exceeds `fp_limit` (with
`total_evaluations > 0`) is deactivated.  The `total > 0` conjunct guards
the division exactly as Python's short-circuit `and` does. -/
def ringReportFP (cfg : RingConfig) (st : RingState) (pattern_id now : String) :
    FPResult × RingState :=
  match ringLookup st pattern_id with
  | none => (.notFound, st)
  | some rec =>
    let fps := rec.false_positives + 1
    let st₁ := ringUpdate st pattern_id
      (fun r => { r with false_positives := fps })
    if 0 < rec.total_evaluations
        ∧ cfg.fp_limit < (fps : ℚ) / (rec.total_evaluations : ℚ)
        ∧ rec.status = "active" then
      (.deactivatedR,
       ringUpdate st₁ pattern_id
         (fun r => { r with status := "deactivated",
                            deactivated_at := some now }))
    else (.recordedR fps, st₁)

/-- `LearningRing.record_evaluation` from `learned.py`: SQL `UPDATE` that
increments `total_evaluations` (a no-op on an absent id). -/
def ringRecordEval (st : RingState) (pattern_id : String) : RingState :=
  ringUpdate st pattern_id
    (fun r => { r with total_evaluations := r.total_evaluations + 1 })

/-- One learning-ring operation (for reasoning over operation sequences). -/
inductive RingOp where
  | proposeOp (pattern_id name description : String) (pit_tier : Int)
      (severity principle regex source_scan_hash now : String)
  | reportFPOp (pattern_id now : String)
  | recordEvalOp (pattern_id : String)
  deriving Repr, DecidableEq

/-- Apply one operation (discarding the result dict). -/
def ringApply (cfg : RingConfig) (st : RingState) : RingOp → RingState
  | .proposeOp pid n d t sev pr rx h now =>
    (ringPropose cfg st pid n d t sev pr rx h now).2
  | .reportFPOp pid now => (ringReportFP cfg st pid now).2
  | .recordEvalOp pid => ringRecordEval st pid

/-- Run a sequence of learning-ring operations from a state. -/
def ringRun (cfg : RingConfig) (st : RingState) (ops : List RingOp) : RingState :=
  ops.foldl (ringApply cfg) st

/-- Lifecycle rank used to state monotonicity of status transitions. -/
def statusRank (s : String) : Nat :=
  if s = "staging" then 0
  else if s = "active" then 1
  else if s = "deactivated" then 2
  else 0

lemma ringLookup_nil (pid : String) : ringLookup [] pid = none := rfl

lemma ringLookup_cons (kv : String × LearnedRec) (st : RingState) (pid : String) :
    ringLookup (kv :: st) pid
      = if kv.1 = pid then some kv.2 else ringLookup st pid := by
  unfold ringLookup
  by_cases h : kv.1 = pid
  · rw [if_pos h]
    rw [show (kv :: st).find? (fun kv => kv.1 = pid) = some kv by
      simp [List.find?_cons, h]]
  · rw [if_neg h]
    rw [show (kv :: st).find? (fun kv => kv.1 = pid)
        = st.find? (fun kv => kv.1 = pid) by
      simp [List.find?_cons, h]]

lemma ringLookup_ringUpdate (st : RingState) (pid : String)
    (f : LearnedRec → LearnedRec) (pid' : String) :
    ringLookup (ringUpdate st pid f) pid'
      = if pid' = pid then (ringLookup st pid').map f
        else ringLookup st pid' := by
  induction st with
  | nil =>
    by_cases h : pid' = pid <;> simp [ringUpdate, ringLookup_nil, h]
  | cons kv st ih =>
    have hcons : ringUpdate (kv :: st) pid f
        = (if kv.1 = pid then (kv.1, f kv.2) else kv) :: ringUpdate st pid f := by
      simp [ringUpdate]
    rw [hcons]
    by_cases hk : kv.1 = pid
    · rw [if_pos hk, ringLookup_cons, ringLookup_cons]
      by_cases hv : kv.1 = pid'
      · have hpp : pid' = pid := by rw [← hv]; exact hk
        rw [if_pos hv, if_pos hpp, if_pos hv]
        simp
      · rw [if_neg hv, ih]
        by_cases hpp : pid' = pid
        · rw [if_pos hpp, if_pos hpp, if_neg hv]
        · rw [if_neg hpp, if_neg hpp, if_neg hv]
    · rw [if_neg hk, ringLookup_cons, ringLookup_cons]
      by_cases hv : kv.1 = pid'
      · have hpp : ¬ pid' = pid := by
          intro h
          exact hk (hv.trans h)
        rw [if_neg hpp, if_pos hv, if_pos hv]
      · rw [if_neg hv, ih]
        by_cases hpp : pid' = pid
        · rw [if_pos hpp, if_pos hpp, if_neg hv]
        · rw [if_neg hpp, if_neg hpp, if_neg hv]

/-- **C10.** `report_false_positive` on an unknown pattern id returns the
error result and leaves the store untouched; on a pattern whose status is
not `"active"` it increments `false_positives` and changes nothing else —
in particular the status never changes, so deactivation can only happen
from `"active"`. -/
theorem report_false_positive_missing_or_inactive (cfg : RingConfig)
    (st : RingState) (pid now : String) :
    (ringLookup st pid = none →
      ringReportFP cfg st pid now = (.notFound, st))
    ∧ (∀ rec, ringLookup st pid = some rec → rec.status ≠ "active" →
        (ringReportFP cfg st pid now).1
            = .recordedR (rec.false_positives + 1)
          ∧ ringLookup (ringReportFP cfg st pid now).2 pid
            = some { rec with false_positives := rec.false_positives + 1 }) := by
  constructor
  · intro hnone
    unfold ringReportFP
    rw [hnone]
  · intro rec hlook hstat
    have hcond : ¬ (0 < rec.total_evaluations
        ∧ cfg.fp_limit < ((rec.false_positives + 1 : Nat) : ℚ)
            / (rec.total_evaluations : ℚ)
        ∧ rec.status = "active") := by
      rintro ⟨-, -, h⟩
      exact hstat h
    unfold ringReportFP
    rw [hlook]
    simp only [if_neg hcond]
    refine ⟨by trivial, ?_⟩
    rw [ringLookup_ringUpdate, if_pos rfl, hlook]
    rfl

/-- Witness for C10: with a store holding one staging row `q`, reporting a
false positive on missing `p` is a pure error, and on `q` it bumps the FP
count while leaving the status `staging`. -/
theorem report_false_positive_missing_or_inactive_witness :
    (ringReportFP ⟨5, 3/20⟩
        [("q", ⟨"n", "d", 1, "low", "Truth", "rx", "staging", 1, 0, 0,
                "t0", none, none, "h0"⟩)] "p" "t1"
      = (.notFound,
         [("q", ⟨"n", "d", 1, "low", "Truth", "rx", "staging", 1, 0, 0,
                 "t0", none, none, "h0"⟩)]))
    ∧ ((ringReportFP ⟨5, 3/20⟩
          [("q", ⟨"n", "d", 1, "low", "Truth", "rx", "staging", 1, 0, 0,
                  "t0", none, none, "h0"⟩)] "q" "t1").1
        = .recordedR 1
       ∧ ringLookup (ringReportFP ⟨5, 3/20⟩
            [("q", ⟨"n", "d", 1, "low", "Truth", "rx", "staging", 1, 0, 0,
                    "t0", none, none, "h0"⟩)] "q" "t1").2 "q"
          = some ⟨"n", "d", 1, "low", "Truth", "rx", "staging", 1, 1, 0,
                  "t0", none, none, "h0"⟩) := by
  constructor
  · exact (report_false_positive_missing_or_inactive ⟨5, 3/20⟩
      [("q", ⟨"n", "d", 1, "low", "Truth", "rx", "staging", 1, 0, 0,
              "t0", none, none, "h0"⟩)] "p" "t1").1 (by decide)
  · exact (report_false_positive_missing_or_inactive ⟨5, 3/20⟩
      [("q", ⟨"n", "d", 1, "low", "Truth", "rx", "staging", 1, 0, 0,
              "t0", none, none, "h0"⟩)] "q" "t1").2
      ⟨"n", "d", 1, "low", "Truth", "rx", "staging", 1, 0, 0,
       "t0", none, none, "h0"⟩ (by decide) (by decide)

/-- **C6 (counterexample).** The claim says `propose` rejects any principle
outside the immutable five; the code never validates the principle: a
proposal with principle `"NotAPrinciple"` (valid tier and severity) is
accepted and inserted. -/
theorem propose_accepts_invalid_principle :
    ("NotAPrinciple" ∉ ["Truth", "Justice", "Clarity", "Agency", "Identity"])
    ∧ ((ringPropose ⟨5, 3/20⟩ [] "L_test" "n" "d" 2 "high" "NotAPrinciple"
          "rx" "h0" "t0").1).accepted = true
    ∧ ringLookup ((ringPropose ⟨5, 3/20⟩ [] "L_test" "n" "d" 2 "high"
          "NotAPrinciple" "rx" "h0" "t0").2) "L_test" ≠ none := by
  refine ⟨by decide, by decide, by decide⟩

/-- **C6 (amended).** `propose` accepts iff `pit_tier ∈ {1,2,3}` and
`severity ∈ {low, moderate, high, critical}`; the principle argument is
never checked.  On rejection the store is unchanged. -/
theorem propose_guard_characterisation (cfg : RingConfig) (st : RingState)
    (pid n d : String) (t : Int) (sev pr rx h now : String) :
    (((ringPropose cfg st pid n d t sev pr rx h now).1).accepted = true
       ↔ (t ∈ pitTierKeys ∧ sev ∈ canonicalSeverities))
    ∧ (((ringPropose cfg st pid n d t sev pr rx h now).1).accepted = false →
        (ringPropose cfg st pid n d t sev pr rx h now).2 = st) := by
  unfold ringPropose
  by_cases ht : t ∈ pitTierKeys
  · rw [if_neg (fun hn => hn ht)]
    by_cases hs : sev ∈ canonicalSeverities
    · rw [if_neg (fun hn => hn hs)]
      cases hql : ringLookup st pid with
      | some rec =>
        dsimp only
        by_cases hact : rec.status = "staging"
            ∧ cfg.activation_threshold ≤ rec.confirmations + 1
        · rw [if_pos hact]
          exact ⟨by simp [ProposeResult.accepted, ht, hs],
                 by simp [ProposeResult.accepted]⟩
        · rw [if_neg hact]
          exact ⟨by simp [ProposeResult.accepted, ht, hs],
                 by simp [ProposeResult.accepted]⟩
      | none =>
        dsimp only
        exact ⟨by simp [ProposeResult.accepted, ht, hs],
               by simp [ProposeResult.accepted]⟩
    · rw [if_pos hs]
      exact ⟨by simp [ProposeResult.accepted, hs], fun _ => rfl⟩
  · rw [if_pos ht]
    exact ⟨by simp [ProposeResult.accepted, ht], fun _ => rfl⟩

/-- Witness for C6 (amended): a proposal with PIT tier 7 is rejected and
the store (one unrelated row) is untouched. -/
theorem propose_guard_characterisation_witness :
    (((ringPropose ⟨5, 3/20⟩
        [("q", ⟨"n", "d", 1, "low", "Truth", "rx", "staging", 1, 0, 0,
                "t0", none, none, "h0"⟩)]
        "p" "n" "d" 7 "high" "Truth" "rx" "h1" "t1").1).accepted = false)
    ∧ (ringPropose ⟨5, 3/20⟩
        [("q", ⟨"n", "d", 1, "low", "Truth", "rx", "staging", 1, 0, 0,
                "t0", none, none, "h0"⟩)]
        "p" "n" "d" 7 "high" "Truth" "rx" "h1" "t1").2
      = [("q", ⟨"n", "d", 1, "low", "Truth", "rx", "staging", 1, 0, 0,
                "t0", none, none, "h0"⟩)] := by
  have hrej : (((ringPropose ⟨5, 3/20⟩
      [("q", ⟨"n", "d", 1, "low", "Truth", "rx", "staging", 1, 0, 0,
              "t0", none, none, "h0"⟩)]
      "p" "n" "d" 7 "high" "Truth" "rx" "h1" "t1").1).accepted = false) := by
    decide
  exact ⟨hrej,
    (propose_guard_characterisation ⟨5, 3/20⟩
      [("q", ⟨"n", "d", 1, "low", "Truth", "rx", "staging", 1, 0, 0,
              "t0", none, none, "h0"⟩)]
      "p" "n" "d" 7 "high" "Truth" "rx" "h1" "t1").2 hrej⟩

/-- Record well-formedness: at least one confirmation and a lifecycle
status. -/
def recWF (rec : LearnedRec) : Prop :=
  1 ≤ rec.confirmations ∧ rec.status ∈ ["staging", "active", "deactivated"]

/-- Store well-formedness: every row is well-formed. -/
def storeWF (st : RingState) : Prop :=
  ∀ pid rec, ringLookup st pid = some rec → recWF rec

lemma storeWF_empty : storeWF [] := by
  intro pid rec h
  simp [ringLookup] at h

lemma storeWF_ringUpdate (st : RingState) (qid : String)
    (f : LearnedRec → LearnedRec) (hst : storeWF st)
    (hf : ∀ r, recWF r → recWF (f r)) : storeWF (ringUpdate st qid f) := by
  intro pid rec h
  rw [ringLookup_ringUpdate] at h
  by_cases hq : pid = qid
  · rw [if_pos hq] at h
    cases hl : ringLookup st pid with
    | none => rw [hl] at h; cases h
    | some r0 =>
      rw [hl] at h
      cases h
      exact hf r0 (hst pid r0 hl)
  · rw [if_neg hq] at h
    exact hst pid rec h

lemma storeWF_ringApply (cfg : RingConfig) (st : RingState) (op : RingOp)
    (hst : storeWF st) : storeWF (ringApply cfg st op) := by
  cases op with
  | proposeOp qid n d t sev pr rx h now =>
    show storeWF (ringPropose cfg st qid n d t sev pr rx h now).2
    unfold ringPropose
    by_cases ht : t ∈ pitTierKeys
    · rw [if_neg (fun hn => hn ht)]
      by_cases hs : sev ∈ canonicalSeverities
      · rw [if_neg (fun hn => hn hs)]
        cases hql : ringLookup st qid with
        | some rec =>
          dsimp only
          by_cases hact : rec.status = "staging"
              ∧ cfg.activation_threshold ≤ rec.confirmations + 1
          · rw [if_pos hact]
            dsimp only
            apply storeWF_ringUpdate _ _ _
              (storeWF_ringUpdate _ _ _ hst ?_) ?_
            · intro r hr
              rcases hr with ⟨hc, hs2⟩
              refine ⟨?_, ?_⟩
              · first
                | exact hc
                | exact Nat.succ_le_succ (Nat.zero_le _)
              · first
                | simpa using hs2
                | simp
            · intro r hr
              rcases hr with ⟨hc, hs2⟩
              refine ⟨?_, ?_⟩
              · first
                | exact hc
                | exact Nat.succ_le_succ (Nat.zero_le _)
              · first
                | simpa using hs2
                | simp
          · rw [if_neg hact]
            dsimp only
            apply storeWF_ringUpdate _ _ _ hst
            intro r hr
            rcases hr with ⟨hc, hs2⟩
            refine ⟨Nat.succ_le_succ (Nat.zero_le _), by simpa using hs2⟩
        | none =>
          dsimp only
          intro pid rec hl
          rw [ringLookup_cons] at hl
          by_cases hq : qid = pid
          · rw [if_pos hq] at hl
            cases hl
            exact ⟨by norm_num, by simp⟩
          · rw [if_neg hq] at hl
            exact hst pid rec hl
      · rw [if_pos hs]
        exact hst
    · rw [if_pos ht]
      exact hst
  | reportFPOp qid now =>
    show storeWF (ringReportFP cfg st qid now).2
    unfold ringReportFP
    cases hql : ringLookup st qid with
    | none => exact hst
    | some rec =>
      dsimp only
      by_cases hcond : 0 < rec.total_evaluations
          ∧ cfg.fp_limit < ((rec.false_positives + 1 : Nat) : ℚ)
              / (rec.total_evaluations : ℚ)
          ∧ rec.status = "active"
      · rw [if_pos hcond]
        dsimp only
        apply storeWF_ringUpdate _ _ _ (storeWF_ringUpdate _ _ _ hst ?_) ?_
        · intro r hr
          rcases hr with ⟨hc, hs2⟩
          refine ⟨?_, ?_⟩
          · first
            | exact hc
            | exact Nat.succ_le_succ (Nat.zero_le _)
          · first
            | simpa using hs2
            | simp
        · intro r hr
          rcases hr with ⟨hc, hs2⟩
          refine ⟨?_, ?_⟩
          · first
            | exact hc
            | exact Nat.succ_le_succ (Nat.zero_le _)
          · first
            | simpa using hs2
            | simp
      · rw [if_neg hcond]
        dsimp only
        apply storeWF_ringUpdate _ _ _ hst
        intro r hr
        rcases hr with ⟨hc, hs2⟩
        refine ⟨hc, by simpa using hs2⟩
  | recordEvalOp qid =>
    show storeWF (ringRecordEval st qid)
    apply storeWF_ringUpdate _ _ _ hst
    intro r hr
    rcases hr with ⟨hc, hs2⟩
    refine ⟨hc, by simpa using hs2⟩

lemma storeWF_ringRun (cfg : RingConfig) (ops : List RingOp) (st : RingState)
    (hst : storeWF st) : storeWF (ringRun cfg st ops) := by
  induction ops generalizing st with
  | nil => exact hst
  | cons op ops ih =>
    exact ih (ringApply cfg st op) (storeWF_ringApply cfg st op hst)

/-- Per-operation status monotonicity: an operation never lowers the
lifecycle rank of a stored pattern, and never revives a deactivated one. -/
lemma ringApply_status_mono (cfg : RingConfig) (st : RingState) (op : RingOp)
    (pid : String) (rec rec' : LearnedRec)
    (h1 : ringLookup st pid = some rec)
    (h2 : ringLookup (ringApply cfg st op) pid = some rec') :
    statusRank rec.status ≤ statusRank rec'.status
    ∧ (rec.status = "deactivated" → rec'.status = "deactivated") := by
  cases op with
  | proposeOp qid n d t sev pr rx h now =>
    rw [show ringApply cfg st (.proposeOp qid n d t sev pr rx h now)
        = (ringPropose cfg st qid n d t sev pr rx h now).2 from rfl] at h2
    unfold ringPropose at h2
    by_cases ht : t ∈ pitTierKeys
    · rw [if_neg (fun hn => hn ht)] at h2
      by_cases hs : sev ∈ canonicalSeverities
      · rw [if_neg (fun hn => hn hs)] at h2
        cases hql : ringLookup st qid with
        | some rec0 =>
          rw [hql] at h2
          dsimp only at h2
          by_cases hact : rec0.status = "staging"
              ∧ cfg.activation_threshold ≤ rec0.confirmations + 1
          · rw [if_pos hact] at h2
            rw [ringLookup_ringUpdate, ringLookup_ringUpdate] at h2
            by_cases hq : pid = qid
            · rw [if_pos hq, if_pos hq, h1] at h2
              cases h2
              have hrr : rec = rec0 := by
                rw [hq] at h1
                rw [h1] at hql
                exact Option.some.inj hql
              rw [hrr, hact.1]
              exact ⟨by simp [statusRank],
                     by intro hcon; exact absurd hcon (by decide)⟩
            · rw [if_neg hq, if_neg hq, h1] at h2
              cases h2
              exact ⟨le_refl _, fun hd => hd⟩
          · rw [if_neg hact] at h2
            rw [ringLookup_ringUpdate] at h2
            by_cases hq : pid = qid
            · rw [if_pos hq, h1] at h2
              cases h2
              exact ⟨le_refl _, fun hd => hd⟩
            · rw [if_neg hq, h1] at h2
              cases h2
              exact ⟨le_refl _, fun hd => hd⟩
        | none =>
          rw [hql] at h2
          dsimp only at h2
          rw [ringLookup_cons] at h2
          by_cases hq : qid = pid
          · rw [hq] at hql
            rw [hql] at h1
            cases h1
          · rw [if_neg hq, h1] at h2
            cases h2
            exact ⟨le_refl _, fun hd => hd⟩
      · rw [if_pos hs, h1] at h2
        cases h2
        exact ⟨le_refl _, fun hd => hd⟩
    · rw [if_pos ht, h1] at h2
      cases h2
      exact ⟨le_refl _, fun hd => hd⟩
  | reportFPOp qid now =>
    rw [show ringApply cfg st (.reportFPOp qid now)
        = (ringReportFP cfg st qid now).2 from rfl] at h2
    unfold ringReportFP at h2
    cases hql : ringLookup st qid with
    | none =>
      rw [hql] at h2
      rw [h1] at h2
      cases h2
      exact ⟨le_refl _, fun hd => hd⟩
    | some rec0 =>
      rw [hql] at h2
      dsimp only at h2
      by_cases hcond : 0 < rec0.total_evaluations
          ∧ cfg.fp_limit < ((rec0.false_positives + 1 : Nat) : ℚ)
              / (rec0.total_evaluations : ℚ)
          ∧ rec0.status = "active"
      · rw [if_pos hcond] at h2
        rw [ringLookup_ringUpdate, ringLookup_ringUpdate] at h2
        by_cases hq : pid = qid
        · rw [if_pos hq, if_pos hq, h1] at h2
          cases h2
          have hrr : rec = rec0 := by
            rw [hq] at h1
            rw [h1] at hql
            exact Option.some.inj hql
          rw [hrr, hcond.2.2]
          exact ⟨by simp [statusRank],
                 by intro hcon; exact absurd hcon (by decide)⟩
        · rw [if_neg hq, if_neg hq, h1] at h2
          cases h2
          exact ⟨le_refl _, fun hd => hd⟩
      · rw [if_neg hcond] at h2
        rw [ringLookup_ringUpdate] at h2
        by_cases hq : pid = qid
        · rw [if_pos hq, h1] at h2
          cases h2
          exact ⟨le_refl _, fun hd => hd⟩
        · rw [if_neg hq, h1] at h2
          cases h2
          exact ⟨le_refl _, fun hd => hd⟩
  | recordEvalOp qid =>
    rw [show ringApply cfg st (.recordEvalOp qid) = ringRecordEval st qid
        from rfl] at h2
    unfold ringRecordEval at h2
    rw [ringLookup_ringUpdate] at h2
    by_cases hq : pid = qid
    · rw [if_pos hq, h1] at h2
      cases h2
      exact ⟨le_refl _, fun hd => hd⟩
    · rw [if_neg hq, h1] at h2
      cases h2
      exact ⟨le_refl _, fun hd => hd⟩

/-- **C4 (counterexample).** The claim's invariant
`false_positives ≤ total_evaluations` fails: propose a valid pattern
(`total_evaluations = 0`) and report one false positive — the stored row
then has `false_positives = 1 > 0 = total_evaluations`, because
`report_false_positive` increments the FP count without requiring a
recorded evaluation. -/
theorem learned_fp_bound_counterexample :
    ¬ (∀ pid rec,
        ringLookup (ringRun ⟨5, 3/20⟩ []
          [.proposeOp "p" "n" "d" 1 "low" "Truth" "rx" "h0" "t0",
           .reportFPOp "p" "t1"]) pid = some rec →
        rec.false_positives ≤ rec.total_evaluations) := by
  intro hall
  have h := hall "p"
    ⟨"n", "d", 1, "low", "Truth", "rx", "staging", 1, 1, 0, "t0",
     none, none, "h0"⟩ (by decide)
  exact absurd h (by decide)

/-- **C4 (amended).** Over every sequence of learning-ring operations from
the empty store: every stored record keeps `confirmations ≥ 1` and a
lifecycle status, and each single operation never lowers the lifecycle
rank `staging → active → deactivated` nor revives a deactivated pattern.
(The claimed `false_positives ≤ total_evaluations` bound does not hold and
is dropped.) -/
theorem learned_pattern_invariants (cfg : RingConfig) (ops : List RingOp) :
    (∀ pid rec, ringLookup (ringRun cfg [] ops) pid = some rec →
       1 ≤ rec.confirmations
       ∧ rec.status ∈ ["staging", "active", "deactivated"])
    ∧ (∀ st op pid rec rec', ringLookup st pid = some rec →
        ringLookup (ringApply cfg st op) pid = some rec' →
        statusRank rec.status ≤ statusRank rec'.status
        ∧ (rec.status = "deactivated" → rec'.status = "deactivated")) := by
  constructor
  · intro pid rec h
    exact storeWF_ringRun cfg ops [] storeWF_empty pid rec h
  · intro st op pid rec rec' h1 h2
    exact ringApply_status_mono cfg st op pid rec rec' h1 h2

/-- Witness for C4 (amended): after five confirmations of the same pattern
the row is `active` with `confirmations = 5`; the invariant theorem applies
to that run, and the status-monotonicity part applies to the activating
step (`staging`, rank 0, to `active`, rank 1). -/
theorem learned_pattern_invariants_witness :
    (1 ≤ (5 : Nat)
     ∧ "active" ∈ ["staging", "active", "deactivated"])
    ∧ statusRank "staging" ≤ statusRank "active" := by
  constructor
  · have hrow : ringLookup (ringRun ⟨5, 3/20⟩ []
        [.proposeOp "p" "n" "d" 1 "low" "Truth" "rx" "h0" "t0",
         .proposeOp "p" "n" "d" 1 "low" "Truth" "rx" "h1" "t1",
         .proposeOp "p" "n" "d" 1 "low" "Truth" "rx" "h2" "t2",
         .proposeOp "p" "n" "d" 1 "low" "Truth" "rx" "h3" "t3",
         .proposeOp "p" "n" "d" 1 "low" "Truth" "rx" "h4" "t4"]) "p"
      = some ⟨"n", "d", 1, "low", "Truth", "rx", "active", 5, 0, 0, "t0",
              some "t4", none, "h0"⟩ := by decide
    have h := (learned_pattern_invariants ⟨5, 3/20⟩
        [.proposeOp "p" "n" "d" 1 "low" "Truth" "rx" "h0" "t0",
         .proposeOp "p" "n" "d" 1 "low" "Truth" "rx" "h1" "t1",
         .proposeOp "p" "n" "d" 1 "low" "Truth" "rx" "h2" "t2",
         .proposeOp "p" "n" "d" 1 "low" "Truth" "rx" "h3" "t3",
         .proposeOp "p" "n" "d" 1 "low" "Truth" "rx" "h4" "t4"]).1 "p"
      ⟨"n", "d", 1, "low", "Truth", "rx", "active", 5, 0, 0, "t0",
       some "t4", none, "h0"⟩ hrow
    exact h
  · have h := (learned_pattern_invariants ⟨5, 3/20⟩ []).2
      [("p", ⟨"n", "d", 1, "low", "Truth", "rx", "staging", 4, 0, 0, "t0",
              none, none, "h0"⟩)]
      (.proposeOp "p" "n" "d" 1 "low" "Truth" "rx" "h4" "t4") "p"
      ⟨"n", "d", 1, "low", "Truth", "rx", "staging", 4, 0, 0, "t0",
       none, none, "h0"⟩
      ⟨"n", "d", 1, "low", "Truth", "rx", "active", 5, 0, 0, "t0",
       some "t4", none, "h0"⟩ (by decide) (by decide)
    exact h.1

/-! ## Canonical `data` serialization (`json.dumps(data, default=str)`,
`src/app/audit.py` line 83)

Python values handed to the audit chain are modelled by `PyVal`; values
that are not JSON-serializable carry their `str()` rendering
(`pobj`), which `default=str` turns into a JSON string.  `json.dumps`
keeps dict insertion order (no `sort_keys=True` in the source) and uses
the default separators `", "` and `": "`. -/

inductive PyVal where
  | pnull
  | pbool (b : Bool)
  | pint (n : Int)
  | pstr (s : String)
  | plist (xs : List PyVal)
  | pdict (kvs : List (String × PyVal))
  | pobj (str_repr : String)

/-- JSON string escaping as `json.dumps` performs it for the ASCII
strings the audit chain stores (backslash, quote, and the common control
shorthands; `ensure_ascii` escaping of non-ASCII codepoints is not needed
by any theorem and is omitted). -/
def jsonEscapeChar (c : Char) : List Char :=
  if c = '"' then ['\\', '"']
  else if c = '\\' then ['\\', '\\']
  else if c = '\n' then ['\\', 'n']
  else if c = '\t' then ['\\', 't']
  else if c = '\r' then ['\\', 'r']
  else [c]

/-- Serialize a string literal as JSON. -/
def jsonQuote (s : String) : String :=
  "\"" ++ String.mk (s.toList.flatMap jsonEscapeChar) ++ "\""

mutual
/-- `json.dumps(data, default=str)` from `audit.py`: insertion-ordered
keys, default separators, `str()` fallback for non-JSON values. -/
def dumps : PyVal → String
  | .pnull => "null"
  | .pbool true => "true"
  | .pbool false => "false"
  | .pint n => toString n
  | .pstr s => jsonQuote s
  | .plist xs => "[" ++ dumpsList xs ++ "]"
  | .pdict kvs => "\x7b" ++ dumpsDict kvs ++ "\x7d"
  | .pobj r => jsonQuote r

def dumpsList : List PyVal → String
  | [] => ""
  | [x] => dumps x
  | x :: xs => dumps x ++ ", " ++ dumpsList xs

def dumpsDict : List (String × PyVal) → String
  | [] => ""
  | [(k, v)] => jsonQuote k ++ ": " ++ dumps v
  | (k, v) :: kvs => jsonQuote k ++ ": " ++ dumps v ++ ", " ++ dumpsDict kvs
end

/-- Lexicographic code-point comparison (Python string `<=`). -/
def charListLe : List Char → List Char → Bool
  | [], _ => true
  | _ :: _, [] => false
  | a :: as, b :: bs =>
    if a.toNat < b.toNat then true
    else if b.toNat < a.toNat then false
    else charListLe as bs

/-- Insert a key-value pair into a key-sorted association list. -/
def insertByKey (kv : String × PyVal) :
    List (String × PyVal) → List (String × PyVal)
  | [] => [kv]
  | x :: xs =>
    if charListLe kv.1.toList x.1.toList then kv :: x :: xs
    else x :: insertByKey kv xs

/-- Insertion sort of an association list by key. -/
def sortPairs : List (String × PyVal) → List (String × PyVal)
  | [] => []
  | x :: xs => insertByKey x (sortPairs xs)

mutual
/-- Recursively sort every object's keys. -/
def sortKeysVal : PyVal → PyVal
  | .pdict kvs => .pdict (sortPairs (sortKeysPairs kvs))
  | .plist xs => .plist (sortKeysList xs)
  | v => v

def sortKeysList : List PyVal → List PyVal
  | [] => []
  | x :: xs => sortKeysVal x :: sortKeysList xs

def sortKeysPairs : List (String × PyVal) → List (String × PyVal)
  | [] => []
  | (k, v) :: kvs => (k, sortKeysVal v) :: sortKeysPairs kvs
end

/-- The serializer the specification describes instead
(`json.dumps(..., sort_keys=True, default=str)`): `dumps` with every
object's keys in sorted order. -/
def dumpsSorted (v : PyVal) : String := dumps (sortKeysVal v)

/-! ## SHA-256 (`hashlib.sha256(...).hexdigest()`)

A byte-level implementation of FIPS 180-4 SHA-256 over `Nat` (words are
kept below 2³² with explicit `% 2^32` masking), together with UTF-8
encoding of strings, so that `hashlib.sha256(s.encode()).hexdigest()` is
`sha256hex s`. -/

/-- Mask to a 32-bit word. -/
def w32 (n : Nat) : Nat := n % 4294967296

/-- 32-bit right rotation. -/
def rotr32 (k x : Nat) : Nat :=
  w32 (Nat.lor (Nat.shiftRight x k) (Nat.shiftLeft x (32 - k)))

/-- The SHA-256 round constants. -/
def shaK : List Nat :=
  [1116352408, 1899447441, 3049323471, 3921009573, 961987163,
   1508970993, 2453635748, 2870763221, 3624381080, 310598401,
   607225278, 1426881987, 1925078388, 2162078206, 2614888103,
   3248222580, 3835390401, 4022224774, 264347078, 604807628,
   770255983, 1249150122, 1555081692, 1996064986, 2554220882,
   2821834349, 2952996808, 3210313671, 3336571891, 3584528711,
   113926993, 338241895, 666307205, 773529912, 1294757372,
   1396182291, 1695183700, 1986661051, 2177026350, 2456956037,
   2730485921, 2820302411, 3259730800, 3345764771, 3516065817,
   3600352804, 4094571909, 275423344, 430227734, 506948616,
   659060556, 883997877, 958139571, 1322822218, 1537002063,
   1747873779, 1955562222, 2024104815, 2227730452, 2361852424,
   2428436474, 2756734187, 3204031479, 3329325298]

/-- The SHA-256 initial hash value. -/
def shaH0 : List Nat :=
  [1779033703, 3144134277, 1013904242, 2773480762, 1359893119,
   2600822924, 528734635, 1541459225]

/-- Big-endian packing of bytes into 32-bit words. -/
def bytesToWords : List Nat → List Nat
  | b0 :: b1 :: b2 :: b3 :: rest =>
    (((b0 * 256 + b1) * 256 + b2) * 256 + b3) :: bytesToWords rest
  | _ => []

/-- Big-endian 8-byte encoding of the bit length. -/
def lengthBytes (bitlen : Nat) : List Nat :=
  [(Nat.shiftRight bitlen 56) % 256, (Nat.shiftRight bitlen 48) % 256,
   (Nat.shiftRight bitlen 40) % 256, (Nat.shiftRight bitlen 32) % 256,
   (Nat.shiftRight bitlen 24) % 256, (Nat.shiftRight bitlen 16) % 256,
   (Nat.shiftRight bitlen 8) % 256, bitlen % 256]

/-- SHA-256 padding: `0x80`, zeros to 56 mod 64, 8-byte big-endian bit
length. -/
def padMessage (msg : List Nat) : List Nat :=
  let len := msg.length
  let padzeros := (64 + 55 - (len % 64)) % 64
  msg ++ 0x80 :: List.replicate padzeros 0 ++ lengthBytes (8 * len)

/-- Split into 64-byte blocks (`fuel` bounds the recursion). -/
def chunk64 : Nat → List Nat → List (List Nat)
  | 0, _ => []
  | _, [] => []
  | fuel + 1, l => l.take 64 :: chunk64 fuel (l.drop 64)

def smallSigma0 (x : Nat) : Nat :=
  Nat.xor (Nat.xor (rotr32 7 x) (rotr32 18 x)) (Nat.shiftRight x 3)

def smallSigma1 (x : Nat) : Nat :=
  Nat.xor (Nat.xor (rotr32 17 x) (rotr32 19 x)) (Nat.shiftRight x 10)

def bigSigma0 (x : Nat) : Nat :=
  Nat.xor (Nat.xor (rotr32 2 x) (rotr32 13 x)) (rotr32 22 x)

def bigSigma1 (x : Nat) : Nat :=
  Nat.xor (Nat.xor (rotr32 6 x) (rotr32 11 x)) (rotr32 25 x)

/-- Extend the 16 message words to 64 (47 extension steps as fuel). -/
def extendSchedule : Nat → List Nat → List Nat
  | 0, ws => ws
  | fuel + 1, ws =>
    if 64 ≤ ws.length then ws
    else
      let n := ws.length
      let w := w32 (smallSigma1 (ws.getD (n - 2) 0) + ws.getD (n - 7) 0
        + smallSigma0 (ws.getD (n - 15) 0) + ws.getD (n - 16) 0)
      extendSchedule fuel (ws ++ [w])

def shaCh (e f g : Nat) : Nat :=
  Nat.xor (Nat.land e f) (Nat.land (Nat.xor e 4294967295) g)

def shaMaj (a b c : Nat) : Nat :=
  Nat.xor (Nat.xor (Nat.land a b) (Nat.land a c)) (Nat.land b c)

/-- The 64 compression rounds. -/
def shaRounds : List Nat → List Nat →
    Nat × Nat × Nat × Nat × Nat × Nat × Nat × Nat →
    Nat × Nat × Nat × Nat × Nat × Nat × Nat × Nat
  | w :: ws, k :: ks, (a, b, c, d, e, f, g, h) =>
    let t1 := w32 (h + bigSigma1 e + shaCh e f g + k + w)
    let t2 := w32 (bigSigma0 a + shaMaj a b c)
    shaRounds ws ks (w32 (t1 + t2), a, b, c, w32 (d + t1), e, f, g)
  | _, _, st => st

/-- One SHA-256 block compression. -/
def shaCompress (h : List Nat) (block : List Nat) : List Nat :=
  let ws := extendSchedule 48 (bytesToWords block)
  match h with
  | [h0, h1, h2, h3, h4, h5, h6, h7] =>
    match shaRounds ws shaK (h0, h1, h2, h3, h4, h5, h6, h7) with
    | (a, b, c, d, e, f, g, hh) =>
      [w32 (h0 + a), w32 (h1 + b), w32 (h2 + c), w32 (h3 + d),
       w32 (h4 + e), w32 (h5 + f), w32 (h6 + g), w32 (h7 + hh)]
  | _ => h

/-- Lowercase hex digit. -/
def hexDigit (n : Nat) : Char :=
  if n < 10 then Char.ofNat (48 + n) else Char.ofNat (87 + n)

/-- 8-hex-digit rendering of a 32-bit word. -/
def wordHex (w : Nat) : List Char :=
  [hexDigit (Nat.land (Nat.shiftRight w 28) 15),
   hexDigit (Nat.land (Nat.shiftRight w 24) 15),
   hexDigit (Nat.land (Nat.shiftRight w 20) 15),
   hexDigit (Nat.land (Nat.shiftRight w 16) 15),
   hexDigit (Nat.land (Nat.shiftRight w 12) 15),
   hexDigit (Nat.land (Nat.shiftRight w 8) 15),
   hexDigit (Nat.land (Nat.shiftRight w 4) 15),
   hexDigit (Nat.land w 15)]

/-- SHA-256 lowercase hex digest of a byte list. -/
def sha256hexBytes (msg : List Nat) : String :=
  let padded := padMessage msg
  let hs := (chunk64 (padded.length + 1) padded).foldl shaCompress shaH0
  String.mk (hs.flatMap wordHex)

/-- UTF-8 encoding of one character (as byte values). -/
def utf8Bytes (c : Char) : List Nat :=
  let n := c.toNat
  if n < 128 then [n]
  else if n < 2048 then
    [192 + Nat.shiftRight n 6, 128 + Nat.land n 63]
  else if n < 65536 then
    [224 + Nat.shiftRight n 12, 128 + Nat.land (Nat.shiftRight n 6) 63,
     128 + Nat.land n 63]
  else
    [240 + Nat.shiftRight n 18, 128 + Nat.land (Nat.shiftRight n 12) 63,
     128 + Nat.land (Nat.shiftRight n 6) 63, 128 + Nat.land n 63]

/-- `s.encode()` — the UTF-8 bytes of a string. -/
def strBytes (s : String) : List Nat := s.toList.flatMap utf8Bytes

/-- `hashlib.sha256(s.encode()).hexdigest()`. -/
def sha256hex (s : String) : String := sha256hexBytes (strBytes s)

/-- FIPS 180-4 test vector: the digest of `"abc"`. -/
lemma sha256hex_abc :
    sha256hex "abc"
      = "ba7816bf8f01cfea414140de5dae2223b00361a396177a9cb410ff61f20015ad" := by
  rfl

/-! ## Audit Chain (`src/app/audit.py`)

The `audit_chain` SQLite table is modelled as a list of entries in id
order (oldest first); `log` appends under the instance lock, reading
`prev_hash` from the greatest existing id.  Timestamps are external
inputs carried by the request. -/

/-- A row of `audit_chain`. -/
structure AuditEntry where
  id : Nat
  prev_hash : String
  hash : String
  event_type : String
  data : String
  timestamp : String
  core_version : String
  deriving Repr, DecidableEq

/-- One `log(event_type, data, core_version)` call together with the
timestamp `datetime.now(timezone.utc).isoformat()` produced during it. -/
structure LogReq where
  event_type : String
  data : PyVal
  timestamp : String
  core_version : String

/-- `"0" * 64`, the genesis previous hash. -/
def genesisHash : String :=
  "0000000000000000000000000000000000000000000000000000000000000000"

/-- `_get_prev_hash`: hash of the row with the greatest id, or genesis. -/
def getPrevHash (st : List AuditEntry) : String :=
  match st.getLast? with
  | some e => e.hash
  | none => genesisHash

/-- `AuditChain.log` from `audit.py`: serialize `data`, concatenate
`prev_hash + event_type + data_str + timestamp + core_version`, hash it,
insert the row, return the hash. -/
def auditLog (st : List AuditEntry) (req : LogReq) : String × List AuditEntry :=
  let prev := getPrevHash st
  let data_str := dumps req.data
  let chain_input :=
    prev ++ req.event_type ++ data_str ++ req.timestamp ++ req.core_version
  let new_hash := sha256hex chain_input
  (new_hash,
   st ++ [{ id := st.length + 1, prev_hash := prev, hash := new_hash,
            event_type := req.event_type, data := data_str,
            timestamp := req.timestamp, core_version := req.core_version }])

/-- A chain built by a sequence of `log` calls from an empty table. -/
def buildChain (reqs : List LogReq) : List AuditEntry :=
  reqs.foldl (fun st req => (auditLog st req).2) []

/-- The hash `verify_chain` recomputes for a stored row. -/
def recomputeHash (e : AuditEntry) : String :=
  sha256hex (e.prev_hash ++ e.event_type ++ e.data ++ e.timestamp
    ++ e.core_version)

/-- One broken-link report from `verify_chain`. -/
structure BrokenLink where
  id : Nat
  issue : String
  deriving Repr, DecidableEq

/-- The per-row loop of `verify_chain`: recompute each hash, and compare
each row's `prev_hash` with the previous row's stored hash (`none` for
the first row checked). -/
def verifyScan : List AuditEntry → Option String → List BrokenLink
  | [], _ => []
  | e :: rest, prevStored =>
    (if recomputeHash e ≠ e.hash then [⟨e.id, "hash_mismatch"⟩] else [])
    ++ (match prevStored with
        | some ph => if e.prev_hash ≠ ph then [⟨e.id, "chain_break"⟩] else []
        | none => [])
    ++ verifyScan rest (some e.hash)

/-- The result dict of `verify_chain`. -/
structure VerifyResult where
  verified : Bool
  entries_checked : Nat
  broken_links : List BrokenLink
  deriving Repr, DecidableEq

/-- `AuditChain.verify_chain(limit)` from `audit.py`: check the oldest
`limit` rows. -/
def verify_chain (st : List AuditEntry) (limit : Nat) : VerifyResult :=
  let rows := st.take limit
  let broken := verifyScan rows none
  { verified := broken.isEmpty, entries_checked := rows.length,
    broken_links := broken }

/-- Chain well-formedness from an expected previous hash: each row links
to its predecessor and stores the hash of its own serialized fields. -/
def chainOK : List AuditEntry → String → Prop
  | [], _ => True
  | e :: rest, ph => e.prev_hash = ph ∧ e.hash = recomputeHash e
      ∧ chainOK rest e.hash

/-- The hash of the last entry, or the given seed for an empty list. -/
def lastHashFrom (ph : String) : List AuditEntry → String
  | [] => ph
  | e :: rest => lastHashFrom e.hash rest

lemma lastHashFrom_append (ph : String) (st : List AuditEntry)
    (e : AuditEntry) : lastHashFrom ph (st ++ [e]) = e.hash := by
  induction st generalizing ph with
  | nil => rfl
  | cons x xs ih => exact ih x.hash

lemma getPrevHash_eq_lastHashFrom (st : List AuditEntry) :
    getPrevHash st = lastHashFrom genesisHash st := by
  induction st using List.reverseRecOn with
  | nil => rfl
  | append_singleton l a ih =>
    rw [lastHashFrom_append]
    show (match (l ++ [a]).getLast? with
          | some e => e.hash | none => genesisHash) = a.hash
    rw [show (l ++ [a]).getLast? = some a by simp]

lemma chainOK_append (st : List AuditEntry) (ph : String) (e : AuditEntry)
    (hok : chainOK st ph) (hprev : e.prev_hash = lastHashFrom ph st)
    (hhash : e.hash = recomputeHash e) : chainOK (st ++ [e]) ph := by
  induction st generalizing ph with
  | nil => exact ⟨hprev, hhash, trivial⟩
  | cons x xs ih =>
    obtain ⟨h1, h2, h3⟩ := hok
    exact ⟨h1, h2, ih x.hash h3 hprev⟩

lemma chainOK_buildChain (reqs : List LogReq) :
    chainOK (buildChain reqs) genesisHash := by
  suffices h : ∀ st, chainOK st genesisHash →
      chainOK (reqs.foldl (fun st req => (auditLog st req).2) st) genesisHash by
    exact h [] trivial
  induction reqs with
  | nil => intro st hst; exact hst
  | cons req reqs ih =>
    intro st hst
    apply ih
    exact chainOK_append st genesisHash _ hst
      (getPrevHash_eq_lastHashFrom st) rfl

lemma chainOK_take (st : List AuditEntry) (ph : String) (n : Nat)
    (h : chainOK st ph) : chainOK (st.take n) ph := by
  induction st generalizing ph n with
  | nil => simp [chainOK]
  | cons x xs ih =>
    cases n with
    | zero => trivial
    | succ n =>
      obtain ⟨h1, h2, h3⟩ := h
      exact ⟨h1, h2, ih x.hash n h3⟩

lemma verifyScan_ok (st : List AuditEntry) (ph : String)
    (h : chainOK st ph) (given : Option String)
    (hgiven : given = none ∨ given = some ph) :
    verifyScan st given = [] := by
  induction st generalizing ph given with
  | nil => rfl
  | cons e rest ih =>
    obtain ⟨h1, h2, h3⟩ := h
    simp only [verifyScan]
    rw [if_neg (by simp [h2])]
    rcases hgiven with rfl | rfl
    · simpa using ih e.hash h3 (some e.hash) (Or.inr rfl)
    · dsimp only
      rw [if_neg (by simp [h1])]
      simpa using ih e.hash h3 (some e.hash) (Or.inr rfl)

lemma chainOK_hash (st : List AuditEntry) (ph : String) (h : chainOK st ph) :
    ∀ e ∈ st, e.hash = recomputeHash e := by
  induction st generalizing ph with
  | nil => intro e he; cases he
  | cons x xs ih =>
    obtain ⟨h1, h2, h3⟩ := h
    intro e he
    rcases List.mem_cons.mp he with rfl | hm
    · exact h2
    · exact ih x.hash h3 e hm

lemma chainOK_link (st : List AuditEntry) (ph : String) (h : chainOK st ph) :
    ∀ (i : Nat) (hi : i + 1 < st.length),
      (st.get ⟨i + 1, hi⟩).prev_hash
        = (st.get ⟨i, by omega⟩).hash := by
  induction st generalizing ph with
  | nil => intro i hi; simp at hi
  | cons x xs ih =>
    obtain ⟨h1, h2, h3⟩ := h
    intro i hi
    cases i with
    | zero =>
      cases xs with
      | nil => simp at hi
      | cons y ys => exact h3.1
    | succ j =>
      exact ih x.hash h3 j (by simpa using hi)

lemma strBytes_append (a b : String) :
    strBytes (a ++ b) = strBytes a ++ strBytes b := by
  simp [strBytes]

/-- **C1.** For every sequence of `log` calls: each stored hash is the
SHA-256 (lowercase hex) of the byte-wise join of the UTF-8 encodings of
`prev_hash`, `event_type`, serialized `data`, `timestamp` and
`core_version`; the genesis `prev_hash` is the 64-zero string; each later
entry's `prev_hash` is the previous entry's stored hash; and
`verify_chain` over the untampered chain reports `verified = true` with
no broken links. -/
theorem audit_chain_invariants (reqs : List LogReq) :
    (∀ e ∈ buildChain reqs,
       e.hash = sha256hexBytes (strBytes e.prev_hash ++ strBytes e.event_type
         ++ strBytes e.data ++ strBytes e.timestamp
         ++ strBytes e.core_version))
    ∧ (∀ e rest, buildChain reqs = e :: rest → e.prev_hash = genesisHash)
    ∧ (∀ (i : Nat) (hi : i + 1 < (buildChain reqs).length),
        ((buildChain reqs).get ⟨i + 1, hi⟩).prev_hash
          = ((buildChain reqs).get ⟨i, by omega⟩).hash)
    ∧ (∀ limit, verify_chain (buildChain reqs) limit
        = { verified := true,
            entries_checked := ((buildChain reqs).take limit).length,
            broken_links := [] }) := by
  have hok := chainOK_buildChain reqs
  refine ⟨?_, ?_, ?_, ?_⟩
  · intro e he
    have h := chainOK_hash _ _ hok e he
    rw [h]
    unfold recomputeHash sha256hex
    rw [strBytes_append, strBytes_append, strBytes_append, strBytes_append]
  · intro e rest hchain
    rw [hchain] at hok
    exact hok.1
  · exact chainOK_link _ _ hok
  · intro limit
    unfold verify_chain
    dsimp only
    rw [verifyScan_ok _ _ (chainOK_take _ _ limit hok) none (Or.inl rfl)]
    rfl

set_option maxRecDepth 16384 in
/-- Witness for C1: a two-event chain (a `scan_local` event with a dict
payload, then a `chain_verified` event) has the genesis previous hash,
hashes that match an independent SHA-256 computation, and verifies
cleanly. -/
theorem audit_chain_invariants_witness :
    buildChain
        [⟨"scan_local", .pdict [("truth_score", .pint 100)],
          "2026-01-01T00:00:00+00:00", "1.2.0"⟩,
         ⟨"chain_verified", .pnull, "2026-01-01T00:00:01+00:00", "1.2.0"⟩]
      = [⟨1, genesisHash,
          "fe493fadf5fb247cfacac0aded24c86d131a4404e02831861fb9988043dd3f3a",
          "scan_local", "\x7b\"truth_score\": 100\x7d",
          "2026-01-01T00:00:00+00:00", "1.2.0"⟩,
         ⟨2, "fe493fadf5fb247cfacac0aded24c86d131a4404e02831861fb9988043dd3f3a",
          "528d9c9208476415ec317eff256f5e2000be59176f1380df870e82ee39f45793",
          "chain_verified", "null", "2026-01-01T00:00:01+00:00", "1.2.0"⟩]
    ∧ verify_chain (buildChain
        [⟨"scan_local", .pdict [("truth_score", .pint 100)],
          "2026-01-01T00:00:00+00:00", "1.2.0"⟩,
         ⟨"chain_verified", .pnull, "2026-01-01T00:00:01+00:00", "1.2.0"⟩]) 100
      = { verified := true, entries_checked := 2, broken_links := [] } := by
  constructor
  · rfl
  · have h := (audit_chain_invariants
      [⟨"scan_local", .pdict [("truth_score", .pint 100)],
        "2026-01-01T00:00:00+00:00", "1.2.0"⟩,
       ⟨"chain_verified", .pnull, "2026-01-01T00:00:01+00:00", "1.2.0"⟩]).2.2.2 100
    rw [h]
    rfl

/-- **C2 (counterexample).** The serialization hashed and persisted is
*not* sorted-key JSON: `json.dumps(data, default=str)` in `audit.py` keeps
dict insertion order, so `{"b": 1, "a": 2}` is persisted as written, not
key-sorted as the claim states. -/
theorem audit_serialization_not_sorted :
    dumps (.pdict [("b", .pint 1), ("a", .pint 2)])
      = "\x7b\"b\": 1, \"a\": 2\x7d"
    ∧ dumpsSorted (.pdict [("b", .pint 1), ("a", .pint 2)])
      = "\x7b\"a\": 2, \"b\": 1\x7d"
    ∧ dumps (.pdict [("b", .pint 1), ("a", .pint 2)])
        ≠ dumpsSorted (.pdict [("b", .pint 1), ("a", .pint 2)])
    ∧ ((auditLog [] ⟨"scan_local", .pdict [("b", .pint 1), ("a", .pint 2)],
          "t0", "1.2.0"⟩).2.map (·.data))
      = ["\x7b\"b\": 1, \"a\": 2\x7d"] := by
  refine ⟨rfl, rfl, by decide, rfl⟩

/-- **C2 (amended).** The canonical string form hashed and persisted by
the audit chain's append is `json.dumps(data, default=str)`: a JSON
rendering preserving dict insertion order (not sorted keys), with
non-JSON values stringified via `str` and embedded as JSON strings; the
identical serializer output is both hashed and stored, and verification
recomputes the hash over that stored string. -/
theorem audit_serialization_canonical (st : List AuditEntry) (req : LogReq) :
    (auditLog st req).2
      = st ++ [{ id := st.length + 1, prev_hash := getPrevHash st,
                 hash := sha256hex (getPrevHash st ++ req.event_type
                   ++ dumps req.data ++ req.timestamp ++ req.core_version),
                 event_type := req.event_type, data := dumps req.data,
                 timestamp := req.timestamp,
                 core_version := req.core_version }]
    ∧ (∀ r : String, dumps (.pobj r) = jsonQuote r)
    ∧ (∀ e : AuditEntry, recomputeHash e
        = sha256hex (e.prev_hash ++ e.event_type ++ e.data ++ e.timestamp
            ++ e.core_version)) := by
  exact ⟨rfl, fun r => rfl, fun e => rfl⟩

/-! ## Detector orchestrator (`src/biasclear/detector.py`) and scan route
(`src/api/main.py`)

The LLM call is an external input (`LLMOutcome`); a failed call carries
whether it was the circuit breaker's fast-fail (`CircuitOpenError`) or an
ordinary exception.  Both `scan_deep` (detector.py:188-196) and
`scan_full` (detector.py:267-271) wrap `llm.generate_json` in
`except Exception`, which catches `CircuitOpenError` as well, so no
exception from the LLM call ever escapes them; the `except
CircuitOpenError` degradation branch of `scan_text` (api/main.py:275-293)
is therefore unreachable from the LLM call and does not appear in the
model of these flows. -/

/-- One element of the LLM response's `flags` array, holding the values
`_extract_ai_flags` reads (each field after its `.get` default). `pit_tier`
is the `int(...)`-parsed tier, `none` when the parse raises. -/
structure RawFlag where
  pattern_id : String
  matched_text : String
  severity : String
  pit_tier : Option Int
  category : String
  description : String
  deriving Repr, DecidableEq

/-- The parsed deep-analysis dict (fields the detector reads). -/
structure DeepParsed where
  severity : Option String
  bias_types : List String
  knowledge_type : Option String
  pit_tier : Option String
  confidence : Option ℚ
  explanation : Option String
  bias_detected : Bool
  flags : List RawFlag
  deriving Repr, DecidableEq

/-- Outcome of `llm.generate_json`: the parsed response, or an exception
(circuit-open or ordinary). -/
inductive LLMOutcome where
  | ok (deep : DeepParsed)
  | err (circuitOpen : Bool) (msg : String)

/-- A dict-shaped flag inside a ScanResult (core or AI provenance). -/
structure DFlag where
  category : String
  pattern_id : String
  matched_text : String
  pit_tier : Int
  severity : String
  description : String
  source : String
  deriving Repr, DecidableEq

/-- Python `str.lower()` (char-wise; `String.toLower` itself is defined
by well-founded recursion and does not evaluate in the kernel). -/
def pyLower (s : String) : String := String.mk (s.toList.map Char.toLower)

/-- Python `str.strip()` (default whitespace) on a string. -/
def pyStrip (s : String) : String :=
  String.mk (((s.toList.dropWhile Char.isWhitespace).reverse.dropWhile
    Char.isWhitespace).reverse)

/-- The per-flag loop of `_extract_ai_flags`, carrying the `seen_ids`
set (lowercased ids). -/
def extractGo : List RawFlag → List String → List DFlag
  | [], _ => []
  | f :: rest, seen =>
    let pattern_id := pyStrip f.pattern_id
    let matched_text := pyStrip f.matched_text
    if pattern_id = "" ∨ matched_text = "" then extractGo rest seen
    else if (pyLower pattern_id) ∈ seen then extractGo rest seen
    else
      let severity0 := pyLower f.severity
      let severity :=
        if severity0 ∈ canonicalSeverities then severity0 else "moderate"
      let pit_tier := max 1 (min 3 (f.pit_tier.getD 2))
      { category := f.category, pattern_id := pattern_id,
        matched_text := matched_text, pit_tier := pit_tier,
        severity := severity, description := f.description,
        source := "ai" } :: extractGo rest (pyLower pattern_id :: seen)

/-- `_extract_ai_flags(deep_result, local_flag_ids)` from `detector.py`:
skip flags with empty id or match, de-duplicate case-insensitively
against local ids and already-kept AI ids, normalize severity to the four
canonical values and clamp the tier to {1,2,3}. -/
def extract_ai_flags (deep : Option DeepParsed) (local_ids : List String) :
    List DFlag :=
  match deep with
  | none => []
  | some dp => extractGo dp.flags (local_ids.map pyLower)

/-- A flag of the frozen core's `CoreEvaluation`. -/
structure CoreFlag where
  category : String
  pattern_id : String
  matched_text : String
  pit_tier : Int
  severity : String
  description : String
  deriving Repr, DecidableEq

/-- The fields of `CoreEvaluation` the detector consumes. -/
structure CoreEvalD where
  flags : List CoreFlag
  knowledge_type : String
  confidence : ℚ
  pit_tier_active : Option String
  summary : String
  deriving Repr, DecidableEq

/-- View a core evaluation as the scorer's input. -/
def toScEval (ce : CoreEvalD) : ScEval :=
  ⟨ce.flags.map (fun f => ⟨f.category, f.pattern_id, f.severity, f.pit_tier⟩),
   ce.pit_tier_active⟩

/-- View a result flag as the scorer's AI-flag input. -/
def toScFlag (f : DFlag) : ScFlag :=
  ⟨f.category, f.pattern_id, f.severity, f.pit_tier⟩

/-- The deep dict as the scorer reads it
(`deep_result.get("severity", "none")`, `bias_types`). -/
def toDeepResult (dp : DeepParsed) : DeepResult :=
  ⟨dp.severity.getD "none", dp.bias_types⟩

/-- The scan-result fields the C5/C9 claims are about.  `truth_score` is
`none` for `scan_deep`'s error dict, which has no such key; `degraded`
records the presence of the `_degraded` key. -/
structure ScanRes where
  text : String
  truth_score : Option Int
  scan_mode : String
  source : String
  flags : List DFlag
  bias_detected : Bool
  error : Option String
  degraded : Bool
  deriving Repr, DecidableEq

/-- `_build_result` from `detector.py`, restricted to the modelled
fields. -/
def build_result (text : String) (core : CoreEvalD) (truth_score : Int)
    (scan_mode : String) (deep : Option DeepParsed) (ai_flags : List DFlag) :
    ScanRes :=
  let core_flags := core.flags.map (fun f =>
    { category := f.category, pattern_id := f.pattern_id,
      matched_text := f.matched_text, pit_tier := f.pit_tier,
      severity := f.severity, description := f.description,
      source := "core" : DFlag })
  let merged := core_flags ++ ai_flags
  { text := text, truth_score := some truth_score, scan_mode := scan_mode,
    source := if scan_mode = "local" then "local"
      else if deep.isSome then "gemini+local" else "local_fallback",
    flags := merged,
    bias_detected := !merged.isEmpty
      || (match deep with | some dp => dp.bias_detected | none => false),
    error := none, degraded := false }

/-- `scan_local` from `detector.py`. -/
def scan_localM (text : String) (core : CoreEvalD) : ScanRes :=
  build_result text core (calculate_truth_score (toScEval core) none [])
    "local" none []

/-- `scan_deep` from `detector.py`: an LLM failure is caught and returns
the error dict `{text, error, scan_mode: "deep", source: "error"}`;
otherwise the core evaluation is merged with the AI flags, whose
de-duplication list is empty (detector.py line 200:
`_extract_ai_flags(deep_result, [])`). -/
def scan_deepM (text : String) (core : CoreEvalD) (llm : LLMOutcome) :
    ScanRes :=
  match llm with
  | .err _ msg =>
    { text := text, truth_score := none, scan_mode := "deep",
      source := "error", flags := [], bias_detected := false,
      error := some msg, degraded := false }
  | .ok dp =>
    let ai := extract_ai_flags (some dp) []
    let ts := calculate_truth_score (toScEval core) (some (toDeepResult dp))
      (ai.map toScFlag)
    build_result text core ts "deep" (some dp) ai

/-- `scan_full` from `detector.py`: the LLM failure is caught with a
log-warning only, leaving `deep_result = None`; the result keeps
`scan_mode = "full"` and carries no error key. -/
def scan_fullM (text : String) (core : CoreEvalD) (llm : LLMOutcome) :
    ScanRes :=
  let local_ids := core.flags.map (·.pattern_id)
  match llm with
  | .err _ _ =>
    build_result text core (calculate_truth_score (toScEval core) none [])
      "full" none (extract_ai_flags none local_ids)
  | .ok dp =>
    let ai := extract_ai_flags (some dp) local_ids
    let ts := calculate_truth_score (toScEval core) (some (toDeepResult dp))
      (ai.map toScFlag)
    build_result text core ts "full" (some dp) ai

/-- The `scan_text` route (api/main.py): dispatch on mode, then the
`"error" in result and not bias_detected` check raises HTTP 502; an
unknown mode raises HTTP 400.  Exceptions are the `Except.error` side,
carrying the HTTP status. -/
def scan_textM (text mode : String) (core : CoreEvalD) (llm : LLMOutcome) :
    Except Nat ScanRes :=
  let dispatch : Except Nat ScanRes :=
    if mode = "local" then .ok (scan_localM text core)
    else if mode = "deep" then .ok (scan_deepM text core llm)
    else if mode = "full" then .ok (scan_fullM text core llm)
    else .error 400
  match dispatch with
  | .error s => .error s
  | .ok r =>
    if r.error.isSome ∧ r.bias_detected = false then .error 502 else .ok r

/-- **C5 (counterexample).** The claim says every failed LLM call in
deep/full mode is caught and degraded to
`scan_mode = "local (fallback from {mode})"`, `_degraded = true`,
`truth_score ≤ 85`.  On a clean text (evaluator output: no flags, score
100) with the LLM failing (here: circuit open): deep mode propagates an
HTTP 502 error instead of returning any result, and full mode returns a
result that keeps `scan_mode = "full"`, has no `_degraded` key, and an
uncapped `truth_score = 100`. -/
theorem llm_failure_degradation_counterexample :
    scan_textM "The meeting is scheduled for 3pm Tuesday." "deep"
        ⟨[], "neutral", 9/10, none, "clean"⟩ (.err true "circuit open")
      = .error 502
    ∧ scan_textM "The meeting is scheduled for 3pm Tuesday." "full"
        ⟨[], "neutral", 9/10, none, "clean"⟩ (.err true "circuit open")
      = .ok { text := "The meeting is scheduled for 3pm Tuesday.",
              truth_score := some 100, scan_mode := "full",
              source := "local_fallback", flags := [],
              bias_detected := false, error := none, degraded := false } := by
  constructor
  · rfl
  · rfl

/-- **C5 (amended).** What actually happens when the LLM call fails
(circuit-open or not): `scan_full` catches the exception and continues
local-only — the result keeps `scan_mode = "full"`, `source =
"local_fallback"`, no error key, no `_degraded` key, and the truth score
is the local score without any 85 cap; `scan_deep` catches it and returns
an error dict, which the API route turns into HTTP 502.  The
`"local (fallback from {mode})"`/`_degraded`/85-cap branch of `scan_text`
fires only on a `CircuitOpenError` escaping the scan call, which the
scan functions' own `except Exception` prevents. -/
theorem llm_failure_actual_semantics (text : String) (core : CoreEvalD)
    (b : Bool) (msg : String) :
    scan_textM text "deep" core (.err b msg) = .error 502
    ∧ scan_fullM text core (.err b msg)
      = build_result text core
          (calculate_truth_score (toScEval core) none []) "full" none []
    ∧ (scan_fullM text core (.err b msg)).scan_mode = "full"
    ∧ (scan_fullM text core (.err b msg)).degraded = false
    ∧ (scan_fullM text core (.err b msg)).error = none
    ∧ scan_textM text "full" core (.err b msg)
      = .ok (scan_fullM text core (.err b msg)) := by
  refine ⟨rfl, rfl, rfl, rfl, rfl, rfl⟩

/-- Field well-formedness of one extracted AI flag, relative to the
`seen_ids` set. -/
def aiFlagWF (seen : List String) (f : DFlag) : Prop :=
  f.pattern_id ≠ "" ∧ f.matched_text ≠ ""
  ∧ f.severity ∈ canonicalSeverities
  ∧ (f.pit_tier = 1 ∨ f.pit_tier = 2 ∨ f.pit_tier = 3)
  ∧ f.source = "ai"
  ∧ pyLower f.pattern_id ∉ seen

lemma extractGo_wf (fs : List RawFlag) (seen : List String) :
    ∀ f ∈ extractGo fs seen, aiFlagWF seen f := by
  induction fs generalizing seen with
  | nil => intro f hf; cases hf
  | cons r rest ih =>
    intro f hf
    unfold extractGo at hf
    by_cases hempty : pyStrip r.pattern_id = "" ∨ pyStrip r.matched_text = ""
    · rw [if_pos hempty] at hf
      exact ih seen f hf
    · rw [if_neg hempty] at hf
      by_cases hseen : pyLower (pyStrip r.pattern_id) ∈ seen
      · rw [if_pos hseen] at hf
        exact ih seen f hf
      · rw [if_neg hseen] at hf
        push_neg at hempty
        rcases List.mem_cons.mp hf with rfl | htail
        · unfold aiFlagWF
          dsimp only
          refine ⟨hempty.1, hempty.2, ?_, ?_, rfl, hseen⟩
          · by_cases hc : pyLower r.severity ∈ canonicalSeverities
            · rw [if_pos hc]
              exact hc
            · rw [if_neg hc]
              decide
          · omega
        · have h := ih (pyLower (pyStrip r.pattern_id) :: seen) f htail
          exact ⟨h.1, h.2.1, h.2.2.1, h.2.2.2.1, h.2.2.2.2.1,
            fun hmem => h.2.2.2.2.2 (List.mem_cons_of_mem _ hmem)⟩

lemma extractGo_pairwise (fs : List RawFlag) (seen : List String) :
    (extractGo fs seen).Pairwise
      (fun f g => pyLower f.pattern_id ≠ pyLower g.pattern_id) := by
  induction fs generalizing seen with
  | nil => exact List.Pairwise.nil
  | cons r rest ih =>
    unfold extractGo
    by_cases hempty : pyStrip r.pattern_id = "" ∨ pyStrip r.matched_text = ""
    · rw [if_pos hempty]
      exact ih seen
    · rw [if_neg hempty]
      by_cases hseen : pyLower (pyStrip r.pattern_id) ∈ seen
      · rw [if_pos hseen]
        exact ih seen
      · rw [if_neg hseen]
        refine List.Pairwise.cons ?_ (ih _)
        intro g hg
        have h := extractGo_wf rest (pyLower (pyStrip r.pattern_id) :: seen) g hg
        have hne := h.2.2.2.2.2
        intro heq
        exact hne (by rw [← heq]; exact List.mem_cons_self _ _)

/-- **C9 (counterexample).** In a *deep* scan the AI flags are extracted
with an empty de-duplication list (`detector.py` line 200), so an AI flag
may repeat a local core flag's `pattern_id`: with the core evaluation of
`"Studies show that sleep improves cognition."` (structural
`CLAIM_WITHOUT_CITATION` plus the `SK_STUDIES_SHOW` marker) and an LLM
response re-reporting `CLAIM_WITHOUT_CITATION`, the merged flags contain
the same id from both sources. -/
theorem deep_scan_ai_core_collision :
    ((scan_deepM "Studies show that sleep improves cognition."
        ⟨[⟨"structural", "CLAIM_WITHOUT_CITATION", "Studies show", 1,
           "moderate",
           "Asserts something as established fact using authority language but provides no source, citation, or verifiable reference."⟩,
          ⟨"marker", "SK_STUDIES_SHOW", "studies show", 1, "low",
           "Sense Knowledge marker detected: 'studies show'"⟩],
         "mixed", 65/100, some "tier_1_ideological", "summary"⟩
        (.ok ⟨some "moderate", ["authority_bias"], some "mixed",
              some "tier_1_ideological", some (7/10), some "expl", true,
              [⟨"CLAIM_WITHOUT_CITATION",
                "Studies show that sleep improves cognition", "moderate",
                some 1, "structural", "authority claim without source"⟩]⟩)).flags.map
      (fun f => (f.source, f.pattern_id)))
      = [("core", "CLAIM_WITHOUT_CITATION"), ("core", "SK_STUDIES_SHOW"),
         ("ai", "CLAIM_WITHOUT_CITATION")] := by
  rfl

/-- **C9 (amended).** Every extracted AI flag has a non-empty
`pattern_id` and `matched_text`, a canonical severity, a tier in {1,2,3}
and source `"ai"`; the extracted list is pairwise distinct by
case-insensitive `pattern_id` and avoids the ids passed for
de-duplication.  In *full* scans the de-duplication list is the local
core flag ids, so no AI flag collides with a core flag; in *deep* scans
the list is empty (detector.py:200) and collisions with core flags are
possible. -/
theorem ai_flag_extraction_invariants (dp : DeepParsed) (ids : List String) :
    (∀ f ∈ extract_ai_flags (some dp) ids,
        f.pattern_id ≠ "" ∧ f.matched_text ≠ ""
        ∧ f.severity ∈ canonicalSeverities
        ∧ (f.pit_tier = 1 ∨ f.pit_tier = 2 ∨ f.pit_tier = 3)
        ∧ f.source = "ai"
        ∧ pyLower f.pattern_id ∉ ids.map pyLower)
    ∧ (extract_ai_flags (some dp) ids).Pairwise
        (fun f g => pyLower f.pattern_id ≠ pyLower g.pattern_id)
    ∧ (∀ text core f, f ∈ (scan_fullM text core (.ok dp)).flags →
        f.source = "ai" →
        ∀ g ∈ core.flags, pyLower f.pattern_id ≠ pyLower g.pattern_id) := by
  refine ⟨?_, ?_, ?_⟩
  · intro f hf
    unfold extract_ai_flags at hf
    exact extractGo_wf dp.flags (ids.map pyLower) f hf
  · unfold extract_ai_flags
    exact extractGo_pairwise dp.flags (ids.map pyLower)
  · intro text core f hf hsrc g hg
    unfold scan_fullM build_result at hf
    dsimp only at hf
    rcases List.mem_append.mp hf with hcore | hai
    · rcases List.mem_map.mp hcore with ⟨cf, -, rfl⟩
      simp at hsrc
    · unfold extract_ai_flags at hai
      have h := extractGo_wf dp.flags
        ((core.flags.map (·.pattern_id)).map pyLower) f hai
      intro heq
      exact h.2.2.2.2.2 (by
        rw [heq]
        exact List.mem_map_of_mem _ (List.mem_map_of_mem _ hg))

/-! ## Regex engine for the frozen core's indicators
(`src/biasclear/frozen_core.py`)

The indicator and citation regexes are case-insensitive
(`re.IGNORECASE`); their constructs are literals, character classes with
quantifiers, alternation, optional groups and word boundaries.  `RE`
covers exactly those.  `ends` lists the possible match ends at a
position in backtracking priority order (alternation left first,
quantifiers greedy), so its head is the match Python's engine commits
to; `findAllPos` then reproduces `re.findall`'s non-overlapping
left-to-right scan. -/

inductive RE where
  | eps
  | lit (l : List Char)
  | cls (p : Char → Bool) (lo : Nat) (hi : Option Nat)
  | seq (a b : RE)
  | alt (a b : RE)
  | opt (a : RE)
  | wb

/-- Case-insensitive literal match at a position (`l` is stored
lowercase). -/
def matchesLit (l : List Char) (cs : List Char) (i : Nat) : Bool :=
  ((cs.drop i).take l.length).map Char.toLower == l

/-- Python `\w` (ASCII part). -/
def wordChar (c : Char) : Bool := c.isAlphanum || c == '_'

/-- Python `\s` (ASCII part). -/
def pySpace (c : Char) : Bool :=
  c == ' ' || c == '\t' || c == '\n' || c == '\r' || c == '\x0b' || c == '\x0c'

/-- Word boundary `\b` at position `i`. -/
def wordBoundary (cs : List Char) (i : Nat) : Bool :=
  let before := match i with
    | 0 => false
    | j + 1 => match cs.get? j with
      | some c => wordChar c
      | none => false
  let after := match cs.get? i with
    | some c => wordChar c
    | none => false
  before != after

/-- All ends reachable by matching `r` at position `i`, in backtracking
priority order (first = the match the engine picks). -/
def ends (cs : List Char) : RE → Nat → List Nat
  | .eps, i => [i]
  | .lit l, i => if matchesLit l cs i then [i + l.length] else []
  | .cls p lo hi, i =>
    let run := ((cs.drop i).takeWhile p).length
    let upper := match hi with
      | none => run
      | some h => min h run
    if upper < lo then []
    else (List.range (upper + 1 - lo)).map (fun k => i + (upper - k))
  | .seq a b, i => (ends cs a i).flatMap (fun j => ends cs b j)
  | .alt a b, i => ends cs a i ++ ends cs b i
  | .opt a, i => ends cs a i ++ [i]
  | .wb, i => if wordBoundary cs i then [i] else []

/-- The engine's match at a position, if any (Python's choice). -/
def matchAt (cs : List Char) (r : RE) (i : Nat) : Option Nat :=
  (ends cs r i).head?

/-- The scan of `re.findall`/`finditer`: leftmost non-overlapping
matches, advancing one char past empty matches. -/
def findAllAux (cs : List Char) (r : RE) : Nat → Nat → List (Nat × Nat)
  | 0, _ => []
  | fuel + 1, pos =>
    if cs.length < pos then []
    else match matchAt cs r pos with
      | some j => (pos, j) :: findAllAux cs r fuel (if pos < j then j else pos + 1)
      | none => findAllAux cs r fuel (pos + 1)

/-- Match spans of `r` over `cs`. -/
def findAllPos (cs : List Char) (r : RE) : List (Nat × Nat) :=
  findAllAux cs r (cs.length + 1) 0

/-- The matched substrings (original case), as `re.findall` returns them
for group-free patterns. -/
def findAllStrings (text : String) (r : RE) : List String :=
  (findAllPos text.toList r).map
    (fun ij => String.mk ((text.toList.drop ij.1).take (ij.2 - ij.1)))

/-- `re.search` as a Boolean: some match starts somewhere. -/
def regexSearch (text : String) (r : RE) : Bool :=
  let cs := text.toList
  (List.range (cs.length + 1)).any (fun i => !(ends cs r i).isEmpty)

/-- First index of a substring (`str.find`), `none` for -1. -/
def findSub (hay needle : List Char) : Option Nat :=
  let rec go : List Char → Nat → Option Nat
    | [], i => if needle.isEmpty then some i else none
    | c :: rest, i =>
      if needle.isPrefixOf (c :: rest) then some i else go rest (i + 1)
  go hay 0

/-! ### The citation pattern and the evaluator phases -/

/-- Case-insensitive literal (argument written lowercase). -/
def rlit (s : String) : RE := .lit s.toList

/-- `\s+`. -/
def rsp : RE := .cls pySpace 1 none

/-- `\s*`. -/
def rsp0 : RE := .cls pySpace 0 none

/-- A single `\s`. -/
def rsp1 : RE := .cls pySpace 1 (some 1)

/-- `\d+`. -/
def rdig : RE := .cls Char.isDigit 1 none

/-- `\d{n}`. -/
def rdigN (n : Nat) : RE := .cls Char.isDigit n (some n)

/-- `[A-Z]` under `re.IGNORECASE` (one letter of either case). -/
def ralpha1 : RE := .cls Char.isAlpha 1 (some 1)

/-- `[a-z]+` under `re.IGNORECASE`. -/
def ralphaP : RE := .cls Char.isAlpha 1 none

/-- Sequencing of a regex list. -/
def seqL (rs : List RE) : RE := rs.foldr .seq .eps

/-- Left-to-right alternation of a regex list. -/
def altL : List RE → RE
  | [] => .eps
  | [r] => r
  | r :: rest => .alt r (altL rest)

/-- `_CITATION_PATTERNS` from `frozen_core.py` (lines 1364-1387), one
alternative per source line, compiled with `re.IGNORECASE`. -/
def citationRE : RE :=
  altL
    [
     -- \([A-Z][a-z]+(?:\s+(?:et\s+al\.?|&\s+[A-Z][a-z]+))?,?\s*\d{4}\)
     seqL [rlit "(", ralpha1, ralphaP,
       .opt (seqL [rsp,
         altL [seqL [rlit "et", rsp, rlit "al", .opt (rlit ".")],
               seqL [rlit "&", rsp, ralpha1, ralphaP]]]),
       .opt (rlit ","), rsp0, rdigN 4, rlit ")"],
     -- \[\d+\]
     seqL [rlit "[", rdig, rlit "]"],
     -- \b\d+\s+[A-Z][a-z]+\.?\s+(?:\d+[a-z]?\s+)?(?:at\s+)?\d+
     seqL [.wb, rdig, rsp, ralpha1, ralphaP, .opt (rlit "."), rsp,
       .opt (seqL [rdig, .opt ralpha1, rsp]),
       .opt (seqL [rlit "at", rsp]), rdig],
     -- (?:Id\.|Ibid\.|Supra|Infra)\s
     seqL [altL [rlit "id.", rlit "ibid.", rlit "supra", rlit "infra"],
       rsp1],
     -- \b[A-Z][a-z]+\s+v\.?\s+[A-Z][a-z]+
     seqL [.wb, ralpha1, ralphaP, rsp, rlit "v", .opt (rlit "."), rsp,
       ralpha1, ralphaP],
     -- (?:Table|Fig(?:ure)?|Appendix|Exhibit)\s+[A-Z0-9]
     seqL [altL [rlit "table", seqL [rlit "fig", .opt (rlit "ure")],
         rlit "appendix", rlit "exhibit"], rsp,
       .cls (fun c => c.isAlpha || c.isDigit) 1 (some 1)],
     -- \bp(?:p)?\.?\s*\d+
     seqL [.wb, rlit "p", .opt (rlit "p"), .opt (rlit "."), rsp0, rdig],
     -- (?:Report|Bulletin|Publication|Circular)\s+(?:No\.?|Number)\s+[\d-]+
     seqL [altL [rlit "report", rlit "bulletin", rlit "publication",
         rlit "circular"], rsp,
       altL [seqL [rlit "no", .opt (rlit ".")], rlit "number"], rsp,
       .cls (fun c => c.isDigit || c == '-') 1 none],
     -- (?:Nat'l|Fed\.|Dep't|Comm'n|Inst\.|Ass'n|Gov't)\s
     seqL [altL [.lit ['n', 'a', 't', '\'', 'l'], rlit "fed.",
         .lit ['d', 'e', 'p', '\'', 't'],
         .lit ['c', 'o', 'm', 'm', '\'', 'n'], rlit "inst.",
         .lit ['a', 's', 's', '\'', 'n'],
         .lit ['g', 'o', 'v', '\'', 't']], rsp1],
     -- \([\w\s.']+,\s*(?:at\s+)?\d{1,4}(?:\s*-\s*\d{1,4})?\)
     seqL [rlit "(",
       .cls (fun c => wordChar c || pySpace c || c == '.' || c == '\'') 1 none,
       rlit ",", rsp0, .opt (seqL [rlit "at", rsp]),
       .cls Char.isDigit 1 (some 4),
       .opt (seqL [rsp0, rlit "-", rsp0, .cls Char.isDigit 1 (some 4)]),
       rlit ")"]]

/-- `FrozenCore._has_nearby_citation(text, marker, window=120)`: find the
*first* occurrence of the marker (case-insensitive), slice the ±120-char
window around that occurrence from the original text, and search it for a
citation token. -/
def has_nearby_citation (text marker : String) : Bool :=
  match findSub (text.toList.map Char.toLower) (marker.toList.map Char.toLower) with
  | none => false
  | some idx =>
    let start := idx - 120
    let stop := min text.length (idx + marker.length + 120)
    let context := String.mk ((text.toList.drop start).take (stop - start))
    regexSearch context citationRE

/-- A structural pattern with its indicators as `RE` values. -/
structure SPattern where
  id : String
  name : String
  description : String
  pit_tier : Int
  severity : String
  principle : String
  indicators : List RE
  min_matches : Nat
  suppress_if_cited : Bool

/-- `FrozenCore._match_structural`: concatenate each indicator's
`re.findall` results; below `min_matches` the pattern yields nothing. -/
def match_structural (text : String) (p : SPattern) : List String :=
  let ms := p.indicators.flatMap (fun r => findAllStrings text r)
  if p.min_matches ≤ ms.length then ms else []

/-- `matched_text[:120]`. -/
def truncate120 (s : String) : String := String.mk (s.toList.take 120)

/-- `marker.upper().replace(" ", "_")`. -/
def upperSnake (s : String) : String :=
  String.mk (s.toList.map (fun c => if c == ' ' then '_' else c.toUpper))

/-- Phase 1 of `FrozenCore.evaluate`: structural pattern detection with
citation-aware suppression, over the active pattern list. -/
def structuralPhase (patterns : List SPattern) (text : String) :
    List CoreFlag :=
  patterns.flatMap (fun p =>
    let ms := match_structural text p
    if ms.isEmpty then []
    else if p.suppress_if_cited
        && ms.all (fun m => has_nearby_citation text m) then []
    else [{ category := "structural", pattern_id := p.id,
            matched_text := truncate120 (ms.headD ""),
            pit_tier := p.pit_tier, severity := p.severity,
            description := p.description }])

/-- Phase 2 of `FrozenCore.evaluate`: keyword-marker scan with the same
citation suppression. -/
def markerPhase (markers : List String) (text : String) : List CoreFlag :=
  markers.flatMap (fun marker =>
    if (findSub (text.toList.map Char.toLower) marker.toList).isSome then
      if has_nearby_citation text marker then []
      else [{ category := "marker", pattern_id := "SK_" ++ upperSnake marker,
              matched_text := marker, pit_tier := 1, severity := "low",
              description := "Sense Knowledge marker detected: '"
                ++ marker ++ "'" }]
    else [])

/-- The flag list of `FrozenCore.evaluate` (phases 1 and 2), over the
active pattern list (base ∪ domain overlay ∪ external patterns). -/
def evaluateFlags (patterns : List SPattern) (markers : List String)
    (text : String) : List CoreFlag :=
  structuralPhase patterns text ++ markerPhase markers text

/-- The `CLAIM_WITHOUT_CITATION` structural pattern of the frozen core's
base set (`frozen_core.py` lines 203-223), the base pattern with
`suppress_if_cited = True`. -/
def claimWithoutCitationP : SPattern :=
  { id := "CLAIM_WITHOUT_CITATION",
    name := "Authoritative Claim Without Citation",
    description := "Asserts something as established fact using authority language but provides no source, citation, or verifiable reference.",
    pit_tier := 1, severity := "moderate", principle := "Truth",
    indicators :=
      [seqL [.wb,
        altL
          [seqL [rlit "studie", .opt (rlit "s"), rsp,
            altL [rlit "show", rlit "prove", rlit "demonstrate",
              rlit "confirm", rlit "indicate", rlit "suggest",
              rlit "find", rlit "reveal"]],
           seqL [rlit "research", rsp,
            altL [seqL [rlit "show", .opt (rlit "s")],
              seqL [rlit "prove", .opt (rlit "s")],
              seqL [rlit "demonstrate", .opt (rlit "s")],
              seqL [rlit "confirm", .opt (rlit "s")],
              seqL [rlit "indicate", .opt (rlit "s")],
              seqL [rlit "suggest", .opt (rlit "s")],
              seqL [rlit "has", rsp, rlit "shown"]]],
           seqL [rlit "expert", .opt (rlit "s"), rsp,
            altL [rlit "say", rlit "agree", rlit "confirm", rlit "believe",
              seqL [rlit "have", rsp,
                altL [rlit "found", rlit "shown", rlit "concluded"]]]],
           seqL [rlit "science", rsp,
            altL [seqL [rlit "show", .opt (rlit "s")],
              seqL [rlit "prove", .opt (rlit "s")],
              seqL [rlit "has", rsp,
                altL [rlit "shown", rlit "proven", rlit "established"]]]],
           seqL [rlit "data", rsp,
            altL [seqL [rlit "show", .opt (rlit "s")],
              seqL [rlit "prove", .opt (rlit "s")],
              seqL [rlit "suggest", .opt (rlit "s")],
              seqL [rlit "confirm", .opt (rlit "s")],
              seqL [rlit "indicate", .opt (rlit "s")]]],
           seqL [rlit "evidence", rsp,
            altL [seqL [rlit "show", .opt (rlit "s")],
              seqL [rlit "suggest", .opt (rlit "s")],
              seqL [rlit "indicate", .opt (rlit "s")],
              seqL [rlit "confirm", .opt (rlit "s")],
              seqL [rlit "demonstrate", .opt (rlit "s")]]]],
        .wb]],
    min_matches := 1, suppress_if_cited := true }

/-- `SENSE_KNOWLEDGE_MARKERS` from `frozen_core.py`. -/
def senseKnowledgeMarkers : List String :=
  ["experts say", "studies show", "everyone agrees", "it's obvious that",
   "science has proven", "the consensus is", "most people think",
   "research indicates", "authorities confirm", "the data suggests",
   "conventional wisdom", "mainstream view", "widely accepted",
   "common knowledge", "it goes without saying", "undeniably",
   "unquestionably"]

/-- The claim's reading of "a citation token within a ±120-character
window around it": the window is sliced around the occurrence *itself*
(start `i`, length `len`), not around the first occurrence of the matched
string. -/
def citedAtWindow (text : String) (i len : Nat) : Bool :=
  let start := i - 120
  let stop := min text.length (i + len + 120)
  regexSearch (String.mk ((text.toList.drop start).take (stop - start)))
    citationRE

/-- Membership in phase 1's output, characterised per pattern. -/
lemma structuralPhase_mem_iff (patterns : List SPattern) (text : String)
    (f : CoreFlag) :
    f ∈ structuralPhase patterns text ↔ ∃ p ∈ patterns,
      (match_structural text p).isEmpty = false
      ∧ (p.suppress_if_cited
          && (match_structural text p).all
            (fun m => has_nearby_citation text m)) = false
      ∧ f = { category := "structural", pattern_id := p.id,
              matched_text :=
                truncate120 ((match_structural text p).headD ""),
              pit_tier := p.pit_tier, severity := p.severity,
              description := p.description } := by
  unfold structuralPhase
  rw [List.mem_flatMap]
  constructor
  · rintro ⟨p, hp, hfp⟩
    refine ⟨p, hp, ?_⟩
    dsimp only at hfp
    by_cases h1 : (match_structural text p).isEmpty
    · rw [if_pos h1] at hfp
      cases hfp
    · rw [if_neg h1] at hfp
      by_cases h2 : (p.suppress_if_cited
          && (match_structural text p).all (fun m => has_nearby_citation text m)) = true
      · rw [if_pos h2] at hfp
        cases hfp
      · rw [if_neg h2] at hfp
        rcases List.mem_singleton.mp hfp with rfl
        exact ⟨by simpa using h1, by simpa using h2, rfl⟩
  · rintro ⟨p, hp, h1, h2, rfl⟩
    refine ⟨p, hp, ?_⟩
    dsimp only
    rw [if_neg (by simp [h1]), if_neg (by simp [h2])]
    exact List.mem_singleton.mpr rfl

/-- Every phase-2 flag is a marker flag. -/
lemma markerPhase_category (markers : List String) (text : String)
    (f : CoreFlag) (hf : f ∈ markerPhase markers text) :
    f.category = "marker" := by
  unfold markerPhase at hf
  rw [List.mem_flatMap] at hf
  obtain ⟨m, -, hfm⟩ := hf
  by_cases h1 : (findSub (text.toList.map Char.toLower) m.toList).isSome
  · rw [if_pos h1] at hfm
    by_cases h2 : has_nearby_citation text m = true
    · rw [if_pos h2] at hfm
      cases hfm
    · rw [if_neg h2] at hfm
      rcases List.mem_singleton.mp hfm with rfl
      rfl
  · rw [if_neg h1] at hfm
    cases hfm

/-- The counterexample input: the first `"studies show"` (position 0) is
followed by the citation token `[12]`, the second (position 181) has no
citation token within 120 characters of it. -/
def suppressionCEText : String :=
  "studies show sleep aids memory [12]. the lab crew wrote more notes on memory and rest: long walks, calm rooms, warm tea and dim light all helped our tired minds rest well. moreover studies show naps help as well."

set_option maxRecDepth 1000000 in
/-- **C3 (counterexample).** `CLAIM_WITHOUT_CITATION` (suppressible)
matches `suppressionCEText` at (0,12) and (181,193); the match at 181 has
no citation token within the ±120-character window around *it*, yet no
flag is emitted — `_has_nearby_citation` looks only around the *first*
occurrence of each matched string (`text_lower.find(marker_lower)`),
which is the cited one, so `all(...)` holds and the pattern is
suppressed.  This refutes the claim's converse direction. -/
theorem citation_suppression_counterexample :
    claimWithoutCitationP.suppress_if_cited = true
    ∧ findAllPos suppressionCEText.toList
        (claimWithoutCitationP.indicators.headD .eps) = [(0, 12), (181, 193)]
    ∧ citedAtWindow suppressionCEText 181 12 = false
    ∧ evaluateFlags [claimWithoutCitationP] senseKnowledgeMarkers
        suppressionCEText = [] := by
  refine ⟨rfl, by decide, by decide, by decide⟩

/-- **C3 (amended).** For a suppressible pattern `P` in the active set
(with a unique id), a structural flag for `P` appears in the evaluator's
output iff `P` has matches and at least one *matched string* lacks a
citation token in the ±120-character window around the **first
case-insensitive occurrence of that string in the text** — the window is
anchored at the first occurrence, not at each match's own position. -/
theorem citation_suppression_characterisation (patterns : List SPattern)
    (markers : List String) (text : String) (P : SPattern)
    (hP : P ∈ patterns) (hsup : P.suppress_if_cited = true)
    (huniq : ∀ Q ∈ patterns, Q.id = P.id → Q = P) :
    (∃ f ∈ evaluateFlags patterns markers text,
        f.category = "structural" ∧ f.pattern_id = P.id)
      ↔ (match_structural text P ≠ []
         ∧ ∃ m ∈ match_structural text P,
             has_nearby_citation text m = false) := by
  constructor
  · rintro ⟨f, hf, hcat, hid⟩
    rcases List.mem_append.mp hf with hs | hm
    · obtain ⟨p, hp, h1, h2, rfl⟩ := (structuralPhase_mem_iff _ _ _).mp hs
      have hpP : p = P := huniq p hp hid
      subst hpP
      rw [hsup] at h2
      simp only [Bool.true_and] at h2
      refine ⟨by simpa using h1, ?_⟩
      have := List.all_eq_false.mp h2
      obtain ⟨m, hm, hmc⟩ := this
      exact ⟨m, hm, by simpa using hmc⟩
    · have := markerPhase_category markers text f hm
      rw [this] at hcat
      exact absurd hcat (by decide)
  · rintro ⟨hne, m, hm, hmc⟩
    refine ⟨_, List.mem_append_left _
      ((structuralPhase_mem_iff patterns text _).mpr
        ⟨P, hP, ?_, ?_, rfl⟩), rfl, rfl⟩
    · simpa using hne
    · rw [hsup]
      simp only [Bool.true_and]
      exact List.all_eq_false.mpr ⟨m, hm, by simpa using hmc⟩

/-- Witness for C3 (amended): on the uncited
`"Studies show that sleep improves cognition."` the flag is emitted (the
single match `"Studies show"` has no nearby citation). -/
theorem citation_suppression_characterisation_witness :
    ∃ f ∈ evaluateFlags [claimWithoutCitationP] senseKnowledgeMarkers
        "Studies show that sleep improves cognition.",
      f.category = "structural"
      ∧ f.pattern_id = claimWithoutCitationP.id := by
  exact (citation_suppression_characterisation [claimWithoutCitationP]
    senseKnowledgeMarkers "Studies show that sleep improves cognition."
    claimWithoutCitationP (List.mem_cons_self _ _) rfl
    (fun Q hQ _ => by simpa using hQ)).mpr
    ⟨by decide, "Studies show", by decide, by decide⟩

end BiasClear
